import Mathlib

/-!
HQ sample server: request dispatch, the wait/release rendezvous, server push,
the supported versions, and the try-guard of the resource statistics.

A shallow embedding of

* `Dispatcher::getRequestHandler` and the version list of the `HQServer`
  constructor (`proxygen/httpserver/samples/hq/HQServer.h`),
* the `ServerPushHandler` constructor, `ServerPushHandler::onHeadersComplete`
  with the methods it calls, `WaitReleaseHandler::onHeadersComplete` and
  `WaitReleaseHandler::maybeCleanup`
  (`proxygen/httpserver/samples/hq/SampleHandlers.cpp`),
* the class `ReadTryGuard` (`proxygen/lib/statistics/ResourceStats.cpp`),

followed by the properties established about them.

Conventions.  A `std::string` is a Lean `String`.  Process-wide variables
(`shouldPassHealthChecks`, `gPushResponseBody`, the `waitingHandlers` map) are
passed explicitly.  A handler object is named by a natural number standing for
its address (`this`).  Calls made on collaborators (the transaction, the mutex,
another handler) are recorded, in program order, in a list of `Effect`s, and
for the push handler in a list of `PushEffect`s.  A result `none` stands for
the end of the process (a failed `CHECK`, or an exception leaving a `noexcept`
method).
-/

namespace quic.samples

/-! ## Request dispatch -/

/-- Fields of `struct PartiallyReliableHandlerParams`. -/
structure PartiallyReliableHandlerParams where
  partialReliabilityEnabled : Bool := false
  prChunkSize : Option Nat := none
  prChunkDelayMs : Option Nat := none
deriving DecidableEq, Repr

/-- The handler object built by one of the `new ...Handler(...)` expressions of
`Dispatcher::getRequestHandler`, with the constructor arguments it was given. -/
inductive Handler where
  | EchoHandler (version : String)
  | ContinueHandler (version : String)
  | RandBytesGenHandler (version : String)
  | HealthCheckHandler (healthy : Bool) (version : String)
  | WaitReleaseHandler (version : String)
  | PrCatHandler (version : String) (prChunkSize prChunkDelayMs : Option Nat)
  | ServerPushHandler (version : String)
  | DummyHandler
deriving DecidableEq, Repr

/-- The process-wide variables read or written while a request is dispatched:
`shouldPassHealthChecks` (HQServer.h) and `gPushResponseBody`
(SampleHandlers.cpp). -/
structure Globals where
  shouldPassHealthChecks : Bool
  gPushResponseBody : String
deriving DecidableEq, Repr

/-- The characters for which `std::isdigit` answers true in the "C" locale. -/
def isdigit (c : Char) : Bool :=
  decide ('0' ≤ c) && decide (c ≤ '9')

/-- The test `boost::algorithm::starts_with(s, p)`. -/
def starts_with (s p : String) : Bool :=
  p.data.isPrefixOf s.data

/-- The constructor `ServerPushHandler::ServerPushHandler(version)`: when the
cached push body is empty it is loaded from the push file, and a failed read
trips the `CHECK`, which aborts the process.  `pushFile` is what
`folly::readFile(kPushFileName, _)` finds: `none` when the file cannot be
read, otherwise its contents.  The result is `none` when the process aborts. -/
def ServerPushHandler.new (pushFile : Option String) (version : String)
    (gPushResponseBody : String) : Option (Handler × String) :=
  if gPushResponseBody = "" then
    match pushFile with
    | none => none
    | some contents => some (Handler.ServerPushHandler version, contents)
  else
    some (Handler.ServerPushHandler version, gPushResponseBody)

/-- The function `Dispatcher::getRequestHandler(msg, version, prParams)`, with
`path = msg->getPath()`.  The first component is the handler returned, `none`
when the process aborted inside a constructor; the second is the value of the
process-wide variables afterwards. -/
def Dispatcher.getRequestHandler (pushFile : Option String) (path : String)
    (version : String) (prParams : Option PartiallyReliableHandlerParams)
    (g : Globals) : Option Handler × Globals :=
  if path = "/" ∨ path = "/echo" then
    (some (Handler.EchoHandler version), g)
  else if path = "/continue" then
    (some (Handler.ContinueHandler version), g)
  else if 1 < path.length ∧ path.data.head? = some '/' ∧
      isdigit (path.data.getD 1 ' ') = true then
    (some (Handler.RandBytesGenHandler version), g)
  else if path = "/status" then
    (some (Handler.HealthCheckHandler g.shouldPassHealthChecks version), g)
  else if path = "/status_ok" then
    (some (Handler.HealthCheckHandler true version),
      { g with shouldPassHealthChecks := true })
  else if path = "/status_fail" then
    (some (Handler.HealthCheckHandler true version),
      { g with shouldPassHealthChecks := false })
  else if path = "/wait" ∨ path = "/release" then
    (some (Handler.WaitReleaseHandler version), g)
  else
    let prCat : Option Handler :=
      if path = "/pr_cat" then
        match prParams with
        | none => none
        | some p =>
          if p.partialReliabilityEnabled = false then none
          else some (Handler.PrCatHandler version p.prChunkSize p.prChunkDelayMs)
      else none
    match prCat with
    | some h => (some h, g)
    | none =>
      if starts_with path "/push" = true then
        match ServerPushHandler.new pushFile version g.gPushResponseBody with
        | none => (none, g)
        | some (h, body) => (some h, { g with gPushResponseBody := body })
      else
        (some Handler.DummyHandler, g)

/-! ### The decision table of the specification -/

/-- The handler variants named by the routing table. -/
inductive HandlerKind where
  | Echo | Continue | RandomBytes | HealthCheck | WaitRelease
  | PartialReliabilityCat | ServerPush | Dummy
deriving DecidableEq, Repr

/-- The variant of a constructed handler. -/
def Handler.kind : Handler → HandlerKind
  | .EchoHandler _ => .Echo
  | .ContinueHandler _ => .Continue
  | .RandBytesGenHandler _ => .RandomBytes
  | .HealthCheckHandler _ _ => .HealthCheck
  | .WaitReleaseHandler _ => .WaitRelease
  | .PrCatHandler _ _ _ => .PartialReliabilityCat
  | .ServerPushHandler _ => .ServerPush
  | .DummyHandler => .Dummy

/-- Whether the optional parameters are present with partial reliability on. -/
def prEnabled : Option PartiallyReliableHandlerParams → Bool
  | none => false
  | some p => p.partialReliabilityEnabled

/-- The rows of the routing table, in priority order, as the specification
words them: a pattern on the path and the variant it selects. -/
def routingTable (pr : Option PartiallyReliableHandlerParams) :
    List ((String → Bool) × HandlerKind) :=
  [ (fun p => p == "/" || p == "/echo", .Echo),
    (fun p => p == "/continue", .Continue),
    (fun p => match p.data with
        | c0 :: c1 :: _ => c0 == '/' && c1.isDigit
        | _ => false, .RandomBytes),
    (fun p => p == "/status" || p == "/status_ok" || p == "/status_fail",
      .HealthCheck),
    (fun p => p == "/wait" || p == "/release", .WaitRelease),
    (fun p => p == "/pr_cat" && prEnabled pr, .PartialReliabilityCat),
    (fun p => ("/push".data).isPrefixOf p.data, .ServerPush) ]

/-- First match wins; a path that matches no row selects `Dummy`. -/
def firstMatch (path : String) : List ((String → Bool) × HandlerKind) → HandlerKind
  | [] => .Dummy
  | (pat, k) :: rest => if pat path = true then k else firstMatch path rest

/-- The variant the routing table selects for a path. -/
def selectHandler (path : String) (pr : Option PartiallyReliableHandlerParams) :
    HandlerKind :=
  firstMatch path (routingTable pr)

/-! ## The wait/release rendezvous -/

/-- The request methods of `proxygen::HTTPMethod`. -/
inductive HTTPMethod where
  | GET | POST | OPTIONS | DELETE | HEAD | CONNECT | PUT | TRACE | PATCH
deriving DecidableEq, Repr

/-- The parts of a `proxygen::HTTPMessage` request the handlers read. -/
structure HTTPMessage where
  /-- What `getMethod()` returns: `none` for a method outside the enumeration. -/
  method : Option HTTPMethod
  /-- What `getPath()` returns: the URL without its query string. -/
  path : String
  /-- The query parameters, by name. -/
  query : List (String × String)
  /-- What `getURL()` returns. -/
  url : String
deriving DecidableEq, Repr

/-- The call `msg->getQueryParam(name)`: the value of the parameter, and
`proxygen::empty_string` when the request has no such parameter. -/
def HTTPMessage.getQueryParam (msg : HTTPMessage) (name : String) : String :=
  match msg.query.find? (fun kv => kv.1 == name) with
  | some kv => kv.2
  | none => ""

/-- A call made on a collaborator.  `self`, `h` are handler addresses; an event
that carries `self` is a call on that handler's own transaction `txn_`. -/
inductive Effect where
  | setIdleTimeout (self : Nat) (ms : Nat)
  | lock
  | unlock
  | find (id : Nat)
  | insert (id : Nat) (h : Nat)
  | erase (id : Nat)
  | release (h : Nat)
  | sendHeaders (self : Nat) (status : Nat) (statusMessage : String)
  | sendBody (self : Nat) (body : String)
  | sendEOM (self : Nat)
deriving DecidableEq, Repr

/-- Whether an event is an access to the `waitingHandlers` map. -/
def Effect.isRegistryAccess : Effect → Bool
  | .find _ => true
  | .insert _ _ => true
  | .erase _ => true
  | _ => false

/-- The map `std::unordered_map<uint, WaitReleaseHandler*>` as the list of its
entries `(id, handler address)`. -/
abbrev Registry := List (Nat × Nat)

/-- The lookup `waitingHandlers.find(id)`: the handler of the entry found,
`none` for `end()`. -/
def Registry.find (r : Registry) (id : Nat) : Option Nat :=
  match r with
  | [] => none
  | (k, h) :: rest => if k = id then some h else Registry.find rest id

/-- The call `waitingHandlers.insert(std::make_pair(id, h))`: a map keeps the
entry it already has for a key. -/
def Registry.insert (r : Registry) (id h : Nat) : Registry :=
  match Registry.find r id with
  | some _ => r
  | none => (id, h) :: r

/-- The call `waitingHandlers.erase(it)` for the iterator `it = find(id)`: the
entry found is removed. -/
def Registry.erase (r : Registry) (id : Nat) : Registry :=
  match r with
  | [] => []
  | (k, h) :: rest => if k = id then rest else (k, h) :: Registry.erase rest id

/-- The ids of the entries. -/
def Registry.keys (r : Registry) : List Nat := r.map Prod.fst

/-- The member variables `path_` and `id_` of a `WaitReleaseHandler`. -/
structure WaitReleaseHandler where
  path_ : String
  id_ : Nat
deriving DecidableEq, Repr

/-- Modelled from the spec: `WaitReleaseHandler::sendErrorResponse(body)`,
defined in SampleHandlers.h, which is not part of the sources at hand.  The
specification calls it a 400-equivalent error response that ends the
transaction; the calls are those of `ServerPushHandler::sendErrorResponse`. -/
def WaitReleaseHandler.sendErrorResponse (self : Nat) (body : String) : List Effect :=
  [.sendHeaders self 400 "ERROR", .sendBody self body, .sendEOM self]

/-- Modelled from the spec: `WaitReleaseHandler::sendOkResponse(body, eom)`,
defined in SampleHandlers.h, which is not part of the sources at hand: a
success response with the given body, final only when `eom` is set; the calls
are those of `ServerPushHandler::sendOkResponse`. -/
def WaitReleaseHandler.sendOkResponse (self : Nat) (body : String) (eom : Bool) :
    List Effect :=
  [.sendHeaders self 200 "OK", .sendBody self body] ++
    (if eom = true then [.sendEOM self] else [])

/-- The method `WaitReleaseHandler::onHeadersComplete(msg)` run on the handler
at address `self` whose members are `this`, with the map `waitingHandlers`.
`tryTo` is `folly::tryTo<uint>`, a library function: `none` when the string is
not an unsigned integer.  The result is the members afterwards, the map
afterwards and the calls made, in order. -/
def WaitReleaseHandler.onHeadersComplete (tryTo : String → Option Nat)
    (self : Nat) (this : WaitReleaseHandler) (msg : HTTPMessage)
    (waitingHandlers : Registry) : WaitReleaseHandler × Registry × List Effect :=
  let this : WaitReleaseHandler := { this with path_ := msg.path }
  let idstr := msg.getQueryParam "id"
  if msg.method ≠ some HTTPMethod.GET ∨ idstr = "" ∨
      (this.path_ ≠ "/wait" ∧ this.path_ ≠ "/release") then
    (this, waitingHandlers, sendErrorResponse self "bad request\n")
  else
    match tryTo idstr with
    | none => (this, waitingHandlers, sendErrorResponse self "invalid id\n")
    | some id =>
      if id = 0 then
        (this, waitingHandlers, sendErrorResponse self "invalid id\n")
      else
        let this : WaitReleaseHandler := { this with id_ := id }
        let pre : List Effect := [.setIdleTimeout self 120000, .lock]
        if this.path_ = "/wait" then
          match waitingHandlers.find this.id_ with
          | some _ =>
            (this, waitingHandlers,
              pre ++ [.find this.id_] ++
                sendErrorResponse self "id already exists\n" ++ [.unlock])
          | none =>
            (this, waitingHandlers.insert this.id_ self,
              pre ++ [.find this.id_, .insert this.id_ self] ++
                sendOkResponse self "waiting\n" false ++ [.unlock])
        else if this.path_ = "/release" then
          match waitingHandlers.find id with
          | none =>
            (this, waitingHandlers,
              pre ++ [.find id] ++
                sendErrorResponse self "id does not exist\n" ++ [.unlock])
          | some waiter =>
            (this, waitingHandlers.erase id,
              pre ++ [.find id, .release waiter, .erase id] ++
                sendOkResponse self "released\n" true ++ [.unlock])
        else
          (this, waitingHandlers, pre ++ [.unlock])

/-- The method `WaitReleaseHandler::maybeCleanup()` run on a handler whose
members are `this`: the map afterwards and the calls made, in order. -/
def WaitReleaseHandler.maybeCleanup (this : WaitReleaseHandler)
    (waitingHandlers : Registry) : Registry × List Effect :=
  if this.path_ = "/wait" ∧ this.id_ ≠ 0 then
    match waitingHandlers.find this.id_ with
    | some _ =>
      (waitingHandlers.erase this.id_,
        [.lock, .find this.id_, .erase this.id_, .unlock])
    | none => (waitingHandlers, [.lock, .find this.id_, .unlock])
  else
    (waitingHandlers, [])

/-- The value of a run of decimal digits read after the value `acc`; `none`
when a character is not a digit. -/
def decimalValue : List Char → Nat → Option Nat
  | [], acc => some acc
  | c :: cs, acc =>
    if isdigit c = true then decimalValue cs (acc * 10 + (c.toNat - '0'.toNat))
    else none

/-- A decimal reading of an unsigned 32-bit integer, used as a concrete
`tryTo` where one is needed: one digit or more, digits only, value below
`2^32`. -/
def decimalUint (s : String) : Option Nat :=
  match s.data with
  | [] => none
  | cs =>
    match decimalValue cs 0 with
    | some n => if n < 2 ^ 32 then some n else none
    | none => none

/-! ### The handlers of a process -/

/-- A state of the rendezvous: the map, the members of every handler object
(by address), and a record of which handlers have already been given request
headers. -/
structure World where
  waitingHandlers : Registry
  objs : Nat → WaitReleaseHandler
  started : Nat → Bool

/-- The state before any request: an empty map and no handler given its
request headers yet; `objs` is whatever the members of the handlers to come
start as. -/
def World.initial (objs : Nat → WaitReleaseHandler) : World :=
  { waitingHandlers := [], objs := objs, started := fun _ => false }

/-- The state after `onHeadersComplete(msg)` on the handler at `self`. -/
def World.onHeadersComplete (tryTo : String → Option Nat) (w : World)
    (self : Nat) (msg : HTTPMessage) : World :=
  let r := WaitReleaseHandler.onHeadersComplete tryTo self (w.objs self) msg
    w.waitingHandlers
  { waitingHandlers := r.2.1,
    objs := Function.update w.objs self r.1,
    started := Function.update w.started self true }

/-- The state after `maybeCleanup()` on the handler at `self`. -/
def World.maybeCleanup (w : World) (self : Nat) : World :=
  { w with waitingHandlers :=
      (WaitReleaseHandler.maybeCleanup (w.objs self) w.waitingHandlers).1 }

/-- The states reachable from the initial one by any sequence of
`onHeadersComplete` and `maybeCleanup` steps, each on any handler and with any
request. -/
inductive Reachable (tryTo : String → Option Nat) : World → Prop where
  | initial (objs : Nat → WaitReleaseHandler) : Reachable tryTo (World.initial objs)
  | headers (w : World) (self : Nat) (msg : HTTPMessage) :
      Reachable tryTo w → Reachable tryTo (w.onHeadersComplete tryTo self msg)
  | cleanup (w : World) (self : Nat) :
      Reachable tryTo w → Reachable tryTo (w.maybeCleanup self)

/-- The states reachable by the sequences in which no handler is given request
headers twice: `onHeadersComplete` runs only on a handler that has not had it
yet, while `maybeCleanup` may run on any handler at any moment. -/
inductive ReachableOnce (tryTo : String → Option Nat) : World → Prop where
  | initial (objs : Nat → WaitReleaseHandler) :
      ReachableOnce tryTo (World.initial objs)
  | headers (w : World) (self : Nat) (msg : HTTPMessage) :
      ReachableOnce tryTo w → w.started self = false →
      ReachableOnce tryTo (w.onHeadersComplete tryTo self msg)
  | cleanup (w : World) (self : Nat) :
      ReachableOnce tryTo w → ReachableOnce tryTo (w.maybeCleanup self)

/-- The part of the invariant that concerns the map alone: no id has two
entries and no entry has the id 0. -/
def World.InvKeys (w : World) : Prop :=
  (Registry.keys w.waitingHandlers).Nodup ∧ ∀ e ∈ w.waitingHandlers, e.1 ≠ 0

/-- The invariant of the rendezvous: no id has two entries, and every entry
`id -> h` has a non-zero id and a handler `h` that has had its request headers
and whose members read `path_ = "/wait"` and `id_ = id`. -/
def World.Inv (w : World) : Prop :=
  (Registry.keys w.waitingHandlers).Nodup ∧
  ∀ e ∈ w.waitingHandlers,
    e.1 ≠ 0 ∧ (w.objs e.2).path_ = "/wait" ∧ (w.objs e.2).id_ = e.1 ∧
      w.started e.2 = true

/-- A `GET` request for `path` whose `id` query parameter is `idstr`. -/
def getRequest (path idstr : String) : HTTPMessage :=
  { method := some .GET, path := path, query := [("id", idstr)],
    url := path ++ "?id=" ++ idstr }

/-! ## Server push -/

/-- The pieces `boost::split(pieces, s, boost::is_any_of("/"))` produces, read
from the characters left to scan and the piece being built (last character
first): every `/` ends a piece, and empty pieces are kept. -/
def splitAux : List Char → List Char → List String
  | [], cur => [String.mk cur.reverse]
  | c :: cs, cur =>
    if c = '/' then String.mk cur.reverse :: splitAux cs []
    else splitAux cs (c :: cur)

/-- The pieces of a path between its `/` characters. -/
def split (s : String) : List String := splitAux s.data []

/-- The decimal digits of `n`, most significant first; `fuel` bounds the
number of digits written. -/
def decimalDigits : Nat → Nat → List Char
  | 0, _ => []
  | fuel + 1, n =>
    if n < 10 then [Nat.digitChar n]
    else decimalDigits fuel (n / 10) ++ [Nat.digitChar (n % 10)]

/-- What `folly::to<std::string>` writes for a non-negative `int`: its decimal
digits. -/
def decimal (n : Nat) : String := String.mk (decimalDigits (n + 1) n)

/-- The string `folly::to<std::string>(msg->getURL(), "/", "pushed", i)`. -/
def pushedResourceUrl (url : String) (i : Nat) : String :=
  url ++ "/" ++ "pushed" ++ decimal i

/-- The value `std::string(count, 'a')` for an `int` count.  The count is
converted to the unsigned `size_type`, so a negative count asks for a length
beyond `max_size()` and the constructor throws `std::length_error`: `none`. -/
def stdStringFill (count : Int) : Option String :=
  if count < 0 then none else some (String.mk (List.replicate count.toNat 'a'))

/-- A transaction a push handler talks to: its own `txn_`, or the one the
`k`-th call of `txn_->newPushedTransaction` returned. -/
inductive Txn where
  | original
  | pushed (k : Nat)
deriving DecidableEq, Repr

/-- The fields set on a message before it is handed to `sendHeaders`: a push
promise or a response. -/
inductive Headers where
  | promise (method url version : String) (chunked : Bool)
  | response (status : Nat) (statusMessage version : String)
      (wantsKeepalive chunked : Bool)
deriving DecidableEq, Repr

/-- A call a push handler makes on a transaction. -/
inductive PushEffect where
  | newPushedTransaction (k : Nat)
  | sendHeaders (txn : Txn) (h : Headers)
  | sendBody (txn : Txn) (body : String)
  | sendEOM (txn : Txn)
deriving DecidableEq, Repr

/-- The member variables `path_` and `version_` of a `ServerPushHandler`. -/
structure ServerPushHandler where
  path_ : String
  version_ : String
deriving DecidableEq, Repr

/-- The method `ServerPushHandler::sendPushPromise(txn, pushedResourceUrl)`. -/
def ServerPushHandler.sendPushPromise (this : ServerPushHandler) (txn : Txn)
    (pushedResourceUrl : String) : List PushEffect :=
  [.sendHeaders txn (.promise "GET" pushedResourceUrl this.version_ true)]

/-- The method `ServerPushHandler::sendPushResponse(pushTxn, pushedResourceUrl,
pushedResourceBody, eom)`. -/
def ServerPushHandler.sendPushResponse (this : ServerPushHandler) (pushTxn : Txn)
    (pushedResourceBody : String) (eom : Bool) : List PushEffect :=
  [.sendHeaders pushTxn (.response 200 "OK" this.version_ true true),
    .sendBody pushTxn
      ("I AM THE PUSHED RESPONSE AND I AM NOT RESPONSIBLE: " ++ pushedResourceBody)] ++
    (if eom = true then [.sendEOM pushTxn] else [])

/-- The method `ServerPushHandler::sendErrorResponse(body)`. -/
def ServerPushHandler.sendErrorResponse (this : ServerPushHandler) (body : String) :
    List PushEffect :=
  [.sendHeaders .original (.response 400 "ERROR" this.version_ false false),
    .sendBody .original body, .sendEOM .original]

/-- The method `ServerPushHandler::sendOkResponse(body, eom)`. -/
def ServerPushHandler.sendOkResponse (this : ServerPushHandler) (body : String)
    (eom : Bool) : List PushEffect :=
  [.sendHeaders .original (.response 200 "OK" this.version_ true true),
    .sendBody .original body] ++
    (if eom = true then [.sendEOM .original] else [])

/-- The loop `for (int i = 0; i < numResponses; ++i)` of
`ServerPushHandler::onHeadersComplete`, with `remaining` rounds to go from
index `i`: a pushed transaction is made, promised and answered in each round. -/
def ServerPushHandler.pushLoop (this : ServerPushHandler) (url body : String) :
    Nat → Nat → List PushEffect
  | 0, _ => []
  | remaining + 1, i =>
    [.newPushedTransaction i] ++
      this.sendPushPromise (.pushed i) (pushedResourceUrl url i) ++
      this.sendPushResponse (.pushed i) body true ++
      ServerPushHandler.pushLoop this url body remaining (i + 1)

/-- The method `ServerPushHandler::onHeadersComplete(msg)` run on a handler
whose members are `this`, with the cached push body `gPushResponseBody`.
`tryTo` is `folly::tryTo<int>`, a library function.  The result is the
members afterwards, the cached push body afterwards and the calls made, in
order; it is `none` when an exception leaves the `noexcept` method, which
ends the process. -/
def ServerPushHandler.onHeadersComplete (tryTo : String → Option Int)
    (this : ServerPushHandler) (msg : HTTPMessage) (gPushResponseBody : String) :
    Option (ServerPushHandler × String × List PushEffect) :=
  let this : ServerPushHandler := { this with path_ := msg.path }
  if msg.method ≠ some HTTPMethod.GET then
    some (this, gPushResponseBody, this.sendErrorResponse "bad request\n")
  else
    let pathPieces := split msg.path
    let resized : Option String :=
      if 2 < pathPieces.length then
        let responseSize : Int := (tryTo (pathPieces.getD 2 "")).getD 0
        if responseSize ≠ 0 then stdStringFill responseSize
        else some gPushResponseBody
      else some gPushResponseBody
    match resized with
    | none => none
    | some body =>
      let numResponses : Int :=
        if 3 < pathPieces.length then (tryTo (pathPieces.getD 3 "")).getD 1 else 1
      some (this, body,
        ServerPushHandler.pushLoop this msg.url body numResponses.toNat 0 ++
          this.sendOkResponse "I AM THE REQUEST RESPONSE AND I AM RESPONSIBLE\n" true)

/-- A decimal reading of a signed 32-bit integer, used as a concrete `tryTo`
where one is needed: an optional `-`, then digits only. -/
def decimalInt (s : String) : Option Int :=
  match s.data with
  | [] => none
  | '-' :: cs =>
    match cs with
    | [] => none
    | _ =>
      match decimalValue cs 0 with
      | some n => if n ≤ 2 ^ 31 then some (-(n : Int)) else none
      | none => none
  | cs =>
    match decimalValue cs 0 with
    | some n => if n < 2 ^ 31 then some (n : Int) else none
    | none => none

/-- A request with no query string. -/
def plainRequest (method : Option HTTPMethod) (path : String) : HTTPMessage :=
  { method := method, path := path, query := [], url := path }

/-- The calls that make up the `i`-th pushed stream as the specification
describes it: a pushed transaction is opened, a push promise (`GET`, the
request URL followed by `/pushed` and the decimal `i`, chunked) is sent on it,
then a 200 response with the prefixed body and end-of-message. -/
def pushedStream (version url body : String) (i : Nat) : List PushEffect :=
  [.newPushedTransaction i,
    .sendHeaders (.pushed i) (.promise "GET" (url ++ "/pushed" ++ decimal i) version true),
    .sendHeaders (.pushed i) (.response 200 "OK" version true true),
    .sendBody (.pushed i) ("I AM THE PUSHED RESPONSE AND I AM NOT RESPONSIBLE: " ++ body),
    .sendEOM (.pushed i)]

/-- The 200 response on the original transaction, with end-of-message. -/
def directResponse (version : String) : List PushEffect :=
  [.sendHeaders .original (.response 200 "OK" version true true),
    .sendBody .original "I AM THE REQUEST RESPONSE AND I AM RESPONSIBLE\n",
    .sendEOM .original]

/-- The response size a request path asks for: its third piece read as an
integer, and 0 when that piece is absent or does not read as one. -/
def requestedSize (tryTo : String → Option Int) (path : String) : Int :=
  match (split path)[2]? with
  | some piece => (tryTo piece).getD 0
  | none => 0

/-- The repeat count a request path asks for: its fourth piece read as an
integer, and 1 when that piece is absent or does not read as one. -/
def repeatCount (tryTo : String → Option Int) (path : String) : Int :=
  match (split path)[3]? with
  | some piece => (tryTo piece).getD 1
  | none => 1

/-- The string of `n` filler bytes `a`. -/
def filler (n : Nat) : String := String.mk (List.replicate n 'a')

/-- Whether an event opens a pushed transaction. -/
def PushEffect.isNewPushedTransaction : PushEffect → Bool
  | .newPushedTransaction _ => true
  | _ => false

/-- The URLs of the push promises sent, in order. -/
def promiseUrls : List PushEffect → List String
  | [] => []
  | .sendHeaders _ (.promise _ url _ _) :: es => url :: promiseUrls es
  | _ :: es => promiseUrls es

/-- The bodies sent on pushed transactions, in order. -/
def pushedBodies : List PushEffect → List String
  | [] => []
  | .sendBody (.pushed _) body :: es => body :: pushedBodies es
  | _ :: es => pushedBodies es

/-- Whether a call on a transaction is part of a 200 response. -/
def PushEffect.isOkHeaders : PushEffect → Bool
  | .sendHeaders _ (.response status _ _ _ _) => status == 200
  | _ => false

/-! ## The supported versions of the server -/

/-- The enumeration `quic::QuicVersion` of the transport library: the two
stable versions `HQServer` names, and any other version by its number. -/
inductive QuicVersion where
  | MVFST
  | MVFST_OLD
  | other (number : Nat)
deriving DecidableEq, Repr

/-- The vector `versions` the constructor `HQServer::HQServer` builds from
`draftVersion` and `useDraftFirst` and hands to `setSupportedVersion`. -/
def HQServer.versions (draftVersion : Option QuicVersion) (useDraftFirst : Bool) :
    List QuicVersion :=
  let versions : List QuicVersion := []
  let versions :=
    match useDraftFirst, draftVersion with
    | true, some d => versions ++ [d]
    | _, _ => versions
  let versions := versions ++ [QuicVersion.MVFST]
  let versions := versions ++ [QuicVersion.MVFST_OLD]
  match useDraftFirst, draftVersion with
  | false, some d => versions ++ [d]
  | _, _ => versions

/-! ## The lock discipline of the rendezvous -/

/-- A run over the calls of a trace that tracks whether the mutex is held:
`none` when the mutex is locked while held, unlocked while free, or the map is
accessed while the mutex is free; otherwise whether the mutex is held at the
end. -/
def lockRun : Bool → List Effect → Option Bool
  | held, [] => some held
  | held, .lock :: es => if held = true then none else lockRun true es
  | held, .unlock :: es => if held = true then lockRun false es else none
  | held, e :: es =>
    if e.isRegistryAccess = true ∧ held = false then none else lockRun held es

/-! ## The try-guard of the resource statistics -/

/-- The state of a `folly::SharedMutex`, a reader-writer lock of the library:
whether a writer holds it, and how many readers hold it. -/
structure SharedMutex where
  exclusive : Bool
  shared : Nat
deriving DecidableEq, Repr

/-- The call `try_lock()` of the library: the exclusive lock is taken when
nobody holds the mutex; the answer says whether it was taken. -/
def SharedMutex.try_lock (m : SharedMutex) : Bool × SharedMutex :=
  if m.exclusive = false ∧ m.shared = 0 then (true, { m with exclusive := true })
  else (false, m)

/-- The call `unlock()` of the library: the exclusive lock is given back. -/
def SharedMutex.unlock (m : SharedMutex) : SharedMutex :=
  { m with exclusive := false }

/-- The call `try_lock_shared()` of the library: a shared lock is taken when
no writer holds the mutex. -/
def SharedMutex.try_lock_shared (m : SharedMutex) : Bool × SharedMutex :=
  if m.exclusive = false then (true, { m with shared := m.shared + 1 })
  else (false, m)

/-- The member `lock_` of a `ReadTryGuard`: whether it points to the mutex
(`true`) or is `nullptr` (`false`). -/
structure ReadTryGuard where
  lock_ : Bool
deriving DecidableEq, Repr

/-- The constructor `ReadTryGuard(lock)`: the guard and the mutex afterwards. -/
def ReadTryGuard.new (lock : SharedMutex) : ReadTryGuard × SharedMutex :=
  let r := lock.try_lock
  if r.1 = false then ({ lock_ := false }, r.2) else ({ lock_ := true }, r.2)

/-- The conversion `explicit operator bool()`. -/
def ReadTryGuard.toBool (g : ReadTryGuard) : Bool := g.lock_

/-- The method `release()`, which the destructor calls as well: the guard and
the mutex afterwards. -/
def ReadTryGuard.release (g : ReadTryGuard) (lock : SharedMutex) :
    ReadTryGuard × SharedMutex :=
  if g.lock_ = true then ({ lock_ := false }, lock.unlock) else (g, lock)

/-! ## Properties of the dispatch -/

theorem isdigit_eq_isDigit (c : Char) : isdigit c = c.isDigit := by
  simp only [isdigit, Char.isDigit, Char.le_def]
  rfl

theorem digit_rule_iff (path : String) :
    (1 < path.length ∧ path.data.head? = some '/' ∧
      isdigit (path.data.getD 1 ' ') = true) ↔
    (match path.data with
      | c0 :: c1 :: _ => c0 == '/' && c1.isDigit
      | _ => false) = true := by
  obtain ⟨data⟩ := path
  rcases data with _ | ⟨c0, _ | ⟨c1, rest⟩⟩ <;>
    simp [String.length, isdigit_eq_isDigit]

theorem selectHandler_eq (path : String)
    (pr : Option PartiallyReliableHandlerParams) :
    selectHandler path pr =
      if path = "/" ∨ path = "/echo" then .Echo
      else if path = "/continue" then .Continue
      else if 1 < path.length ∧ path.data.head? = some '/' ∧
          isdigit (path.data.getD 1 ' ') = true then .RandomBytes
      else if path = "/status" ∨ path = "/status_ok" ∨ path = "/status_fail" then
        .HealthCheck
      else if path = "/wait" ∨ path = "/release" then .WaitRelease
      else if path = "/pr_cat" ∧ prEnabled pr = true then .PartialReliabilityCat
      else if starts_with path "/push" = true then .ServerPush
      else .Dummy := by
  simp only [selectHandler, routingTable, firstMatch, digit_rule_iff, starts_with,
    Bool.or_eq_true, Bool.and_eq_true, beq_iff_eq, or_assoc]

theorem getRequestHandler_outcome (pushFile : Option String) (path version : String)
    (pr : Option PartiallyReliableHandlerParams) (g : Globals) :
    (selectHandler path pr = .ServerPush ∧ g.gPushResponseBody = "" ∧ pushFile = none →
      (Dispatcher.getRequestHandler pushFile path version pr g).1 = none) ∧
    (¬ (selectHandler path pr = .ServerPush ∧ g.gPushResponseBody = "" ∧ pushFile = none) →
      ∃ h, (Dispatcher.getRequestHandler pushFile path version pr g).1 = some h ∧
        h.kind = selectHandler path pr) := by
  rw [selectHandler_eq]
  unfold Dispatcher.getRequestHandler
  by_cases h1 : path = "/" ∨ path = "/echo"
  · simp only [if_pos h1]; simp [Handler.kind]
  simp only [if_neg h1]
  by_cases h2 : path = "/continue"
  · simp only [if_pos h2]; simp [Handler.kind]
  simp only [if_neg h2]
  by_cases h3 : 1 < path.length ∧ path.data.head? = some '/' ∧
      isdigit (path.data.getD 1 ' ') = true
  · simp only [if_pos h3]; simp [Handler.kind]
  simp only [if_neg h3]
  by_cases h4 : path = "/status"
  · simp only [if_pos h4, if_pos (Or.inl h4 : path = "/status" ∨ _)]
    simp [Handler.kind]
  by_cases h5 : path = "/status_ok"
  · simp only [if_neg h4, if_pos h5,
      if_pos (Or.inr (Or.inl h5) : path = "/status" ∨ path = "/status_ok" ∨ _)]
    simp [Handler.kind]
  by_cases h6 : path = "/status_fail"
  · simp only [if_neg h4, if_neg h5, if_pos h6,
      if_pos (Or.inr (Or.inr h6) : path = "/status" ∨ path = "/status_ok" ∨ _)]
    simp [Handler.kind]
  have h456 : ¬ (path = "/status" ∨ path = "/status_ok" ∨ path = "/status_fail") := by
    tauto
  simp only [if_neg h4, if_neg h5, if_neg h6, if_neg h456]
  by_cases h7 : path = "/wait" ∨ path = "/release"
  · simp only [if_pos h7]; simp [Handler.kind]
  simp only [if_neg h7]
  by_cases h8 : path = "/pr_cat"
  · have h9 : ¬ starts_with path "/push" = true := by subst h8; decide
    simp only [if_pos h8, if_neg h9, true_and]
    rcases pr with _ | ⟨en, sz, dl⟩
    · simp [prEnabled, Handler.kind]
    · cases en
      · simp [prEnabled, Handler.kind]
      · simp [prEnabled, Handler.kind, if_pos h8]
  have h8b : ¬ (path = "/pr_cat" ∧ prEnabled pr = true) := fun h => h8 h.1
  simp only [if_neg h8, if_neg h8b]
  by_cases h9 : starts_with path "/push" = true
  · simp only [if_pos h9]
    unfold ServerPushHandler.new
    by_cases hb : g.gPushResponseBody = ""
    · rcases pushFile with _ | contents <;> simp [hb, Handler.kind]
    · simp [hb, Handler.kind]
  · simp only [if_neg h9]; simp [Handler.kind]

/-- C1 (as amended).  Whatever the path, the optional partial-reliability
parameters, the health flag, the cached push body and the push file:
`Dispatcher::getRequestHandler` returns a handler of the variant the routing
table selects (first match wins), except that when the table selects
`ServerPush` while the cached push body is empty and the push file cannot be
read, the `ServerPushHandler` constructor aborts and no handler is returned. -/
theorem getRequestHandler_follows_table (pushFile : Option String) (path version : String)
    (pr : Option PartiallyReliableHandlerParams) (g : Globals) :
    (selectHandler path pr = .ServerPush ∧ g.gPushResponseBody = "" ∧ pushFile = none →
      (Dispatcher.getRequestHandler pushFile path version pr g).1 = none) ∧
    (¬ (selectHandler path pr = .ServerPush ∧ g.gPushResponseBody = "" ∧ pushFile = none) →
      ∃ h, (Dispatcher.getRequestHandler pushFile path version pr g).1 = some h ∧
        h.kind = selectHandler path pr) :=
  getRequestHandler_outcome pushFile path version pr g

/-- Witness for C1 (as amended), at `/push/100/3` with an empty cached push
body: no handler when the push file cannot be read, a `ServerPush` handler
when it can. -/
theorem getRequestHandler_follows_table_witness :
    (Dispatcher.getRequestHandler none "/push/100/3" "1.1" none ⟨true, ""⟩).1 = none ∧
    ∃ h, (Dispatcher.getRequestHandler (some "cat") "/push/100/3" "1.1" none
        ⟨true, ""⟩).1 = some h ∧ h.kind = selectHandler "/push/100/3" none :=
  ⟨(getRequestHandler_follows_table none "/push/100/3" "1.1" none ⟨true, ""⟩).1
      ⟨by decide, by decide, rfl⟩,
    (getRequestHandler_follows_table (some "cat") "/push/100/3" "1.1" none ⟨true, ""⟩).2
      (by decide)⟩

/-- C1 fails as stated: for the path `/push`, with the cached push body empty
and the push file unreadable, the table selects `ServerPush` but
`Dispatcher::getRequestHandler` returns no handler at all. -/
theorem getRequestHandler_table_counterexample :
    selectHandler "/push" none = .ServerPush ∧
    ¬ ∃ h, (Dispatcher.getRequestHandler none "/push" "1.1" none ⟨true, ""⟩).1 = some h ∧
        h.kind = selectHandler "/push" none := by
  refine ⟨by decide, ?_⟩
  rintro ⟨h, hh, -⟩
  have e : (Dispatcher.getRequestHandler none "/push" "1.1" none ⟨true, ""⟩).1 = none := by
    decide
  rw [e] at hh
  cases hh

theorem starts_with_push_data (path : String) (h : starts_with path "/push" = true) :
    ∃ rest, path = ⟨'/' :: 'p' :: 'u' :: 's' :: 'h' :: rest⟩ := by
  obtain ⟨data⟩ := path
  rcases data with _ | ⟨c0, _ | ⟨c1, _ | ⟨c2, _ | ⟨c3, _ | ⟨c4, rest⟩⟩⟩⟩⟩ <;>
    simp [starts_with, List.isPrefixOf] at h
  obtain ⟨rfl, rfl, rfl, rfl, rfl⟩ := h
  exact ⟨rest, rfl⟩

theorem starts_with_push_select (path : String)
    (pr : Option PartiallyReliableHandlerParams)
    (h : starts_with path "/push" = true) : selectHandler path pr = .ServerPush := by
  obtain ⟨rest, rfl⟩ := starts_with_push_data path h
  rw [selectHandler_eq]
  simp [String.ext_iff, isdigit, h]

theorem select_push_starts_with (path : String)
    (pr : Option PartiallyReliableHandlerParams)
    (h : selectHandler path pr = .ServerPush) : starts_with path "/push" = true := by
  rw [selectHandler_eq] at h
  split_ifs at h
  assumption

theorem getRequestHandler_pr_cat (pushFile : Option String) (version : String)
    (pr : Option PartiallyReliableHandlerParams) (g : Globals) :
    Dispatcher.getRequestHandler pushFile "/pr_cat" version pr g =
      match pr with
      | none => (some Handler.DummyHandler, g)
      | some p =>
        if p.partialReliabilityEnabled = true then
          (some (Handler.PrCatHandler version p.prChunkSize p.prChunkDelayMs), g)
        else (some Handler.DummyHandler, g) := by
  rcases pr with _ | ⟨en, sz, dl⟩
  · simp [Dispatcher.getRequestHandler, isdigit, starts_with, String.length]
  · cases en <;> simp [Dispatcher.getRequestHandler, isdigit, starts_with, String.length]

/-- C2 (as amended).  `Dispatcher::getRequestHandler` returns some handler for
every path, except that a path starting with `/push` makes the
`ServerPushHandler` constructor abort (no handler) when the cached push body is
empty and the push file cannot be read.  For `/pr_cat` the handler returned is
a `PartialReliabilityCat` one exactly when the parameters are present with
`partialReliabilityEnabled` true, and the `Dummy` handler when they are absent
or disabled; `/nonexistent` yields the `Dummy` handler. -/
theorem getRequestHandler_total_unless_push_unreadable (pushFile : Option String)
    (path version : String) (pr : Option PartiallyReliableHandlerParams) (g : Globals) :
    (¬ (starts_with path "/push" = true ∧ g.gPushResponseBody = "" ∧ pushFile = none) →
      ∃ h, (Dispatcher.getRequestHandler pushFile path version pr g).1 = some h) ∧
    (starts_with path "/push" = true ∧ g.gPushResponseBody = "" ∧ pushFile = none →
      (Dispatcher.getRequestHandler pushFile path version pr g).1 = none) ∧
    ((∃ h, (Dispatcher.getRequestHandler pushFile "/pr_cat" version pr g).1 = some h ∧
        h.kind = .PartialReliabilityCat) ↔
      ∃ p, pr = some p ∧ p.partialReliabilityEnabled = true) ∧
    (¬ (∃ p, pr = some p ∧ p.partialReliabilityEnabled = true) →
      Dispatcher.getRequestHandler pushFile "/pr_cat" version pr g =
        (some Handler.DummyHandler, g)) ∧
    Dispatcher.getRequestHandler pushFile "/nonexistent" version pr g =
      (some Handler.DummyHandler, g) := by
  refine ⟨?_, ?_, ?_, ?_, ?_⟩
  · intro hn
    have hn2 : ¬ (selectHandler path pr = .ServerPush ∧ g.gPushResponseBody = "" ∧
        pushFile = none) := fun hs => hn ⟨select_push_starts_with path pr hs.1, hs.2⟩
    obtain ⟨h, hh, -⟩ := (getRequestHandler_outcome pushFile path version pr g).2 hn2
    exact ⟨h, hh⟩
  · intro hs
    exact (getRequestHandler_outcome pushFile path version pr g).1
      ⟨starts_with_push_select path pr hs.1, hs.2⟩
  · rw [getRequestHandler_pr_cat]
    rcases pr with _ | ⟨en, sz, dl⟩
    · simp [Handler.kind]
    · cases en <;> simp [Handler.kind]
  · intro hn
    rw [getRequestHandler_pr_cat]
    rcases pr with _ | ⟨en, sz, dl⟩
    · rfl
    · cases en
      · simp
      · exact absurd ⟨_, rfl, rfl⟩ hn
  · simp [Dispatcher.getRequestHandler, isdigit, starts_with, String.length]

/-- Witness for C2 (as amended): `/push` with a readable push file returns a
handler and with an unreadable one returns none; `/pr_cat` without parameters
returns the `Dummy` handler. -/
theorem getRequestHandler_total_unless_push_unreadable_witness :
    (∃ h, (Dispatcher.getRequestHandler (some "cat") "/push" "1.1" none ⟨true, ""⟩).1
        = some h) ∧
    (Dispatcher.getRequestHandler none "/push" "1.1" none ⟨true, ""⟩).1 = none ∧
    Dispatcher.getRequestHandler none "/pr_cat" "1.1" none ⟨true, ""⟩ =
      (some Handler.DummyHandler, ⟨true, ""⟩) :=
  ⟨(getRequestHandler_total_unless_push_unreadable (some "cat") "/push" "1.1" none
      ⟨true, ""⟩).1 (by decide),
    (getRequestHandler_total_unless_push_unreadable none "/push" "1.1" none
      ⟨true, ""⟩).2.1 ⟨by decide, rfl, rfl⟩,
    (getRequestHandler_total_unless_push_unreadable none "/pr_cat" "1.1" none
      ⟨true, ""⟩).2.2.2.1 (by simp)⟩

/-- C2 fails as stated: for the path `/push/100/3`, with the cached push body
empty and the push file unreadable, `Dispatcher::getRequestHandler` returns no
handler. -/
theorem getRequestHandler_total_counterexample :
    ¬ ∃ h, (Dispatcher.getRequestHandler none "/push/100/3" "h3" none ⟨true, ""⟩).1
      = some h := by
  rintro ⟨h, hh⟩
  have e : (Dispatcher.getRequestHandler none "/push/100/3" "h3" none ⟨true, ""⟩).1
      = none := by decide
  rw [e] at hh
  cases hh

/-- C3.  Whatever the health flag is at first: routing `/status_fail` and then
`/status` gives a `HealthCheck` handler built with `healthy = false`; routing
`/status_ok` and then `/status` gives one built with `healthy = true`; the
handler returned for `/status_fail` itself is built with `healthy = true` while
the flag is false afterwards; and routing a path other than `/status_ok` and
`/status_fail` leaves the flag as it was. -/
theorem health_flag_routing (pushFile : Option String) (version : String)
    (pr : Option PartiallyReliableHandlerParams) (g : Globals) :
    (Dispatcher.getRequestHandler pushFile "/status" version pr
        (Dispatcher.getRequestHandler pushFile "/status_fail" version pr g).2).1
      = some (Handler.HealthCheckHandler false version) ∧
    (Dispatcher.getRequestHandler pushFile "/status" version pr
        (Dispatcher.getRequestHandler pushFile "/status_ok" version pr g).2).1
      = some (Handler.HealthCheckHandler true version) ∧
    (Dispatcher.getRequestHandler pushFile "/status_fail" version pr g).1
      = some (Handler.HealthCheckHandler true version) ∧
    (Dispatcher.getRequestHandler pushFile "/status_fail" version pr
        g).2.shouldPassHealthChecks = false ∧
    ∀ path : String, path ≠ "/status_ok" → path ≠ "/status_fail" →
      (Dispatcher.getRequestHandler pushFile path version pr
        g).2.shouldPassHealthChecks = g.shouldPassHealthChecks := by
  refine ⟨?_, ?_, ?_, ?_, ?_⟩
  · simp [Dispatcher.getRequestHandler, isdigit, starts_with, String.length]
  · simp [Dispatcher.getRequestHandler, isdigit, starts_with, String.length]
  · simp [Dispatcher.getRequestHandler, isdigit, starts_with, String.length]
  · simp [Dispatcher.getRequestHandler, isdigit, starts_with, String.length]
  · intro path hok hfail
    unfold Dispatcher.getRequestHandler
    simp only [if_neg hok, if_neg hfail]
    split_ifs <;> try rfl
    all_goals (split <;> try rfl)
    all_goals (split <;> rfl)

/-- Witness for C3: routing `/status` leaves a false health flag false. -/
theorem health_flag_routing_witness :
    (Dispatcher.getRequestHandler none "/status" "1.1" none
      ⟨false, ""⟩).2.shouldPassHealthChecks = false :=
  (health_flag_routing none "1.1" none ⟨false, ""⟩).2.2.2.2 "/status"
    (by decide) (by decide)

/-! ## Properties of the map of waiting handlers -/

theorem Registry.find_insert_self (r : Registry) (id h : Nat)
    (hfree : Registry.find r id = none) : Registry.find (Registry.insert r id h) id = some h := by
  simp [Registry.insert, hfree, Registry.find]

theorem Registry.find_insert_other (r : Registry) (id h k : Nat) (hk : k ≠ id) :
    Registry.find (Registry.insert r id h) k = Registry.find r k := by
  unfold Registry.insert
  split
  · rfl
  · simp [Registry.find, Ne.symm hk]

theorem Registry.find_eq_none_iff (r : Registry) (id : Nat) :
    Registry.find r id = none ↔ id ∉ Registry.keys r := by
  induction r with
  | nil => simp [Registry.find, Registry.keys]
  | cons e rest ih =>
    obtain ⟨k, h⟩ := e
    by_cases hk : k = id
    · simp [Registry.find, Registry.keys, hk]
    · simp only [Registry.find, if_neg hk, ih]
      simp [Registry.keys, Ne.symm hk]

theorem Registry.find_erase_other (r : Registry) (id k : Nat) (hk : k ≠ id) :
    Registry.find (Registry.erase r id) k = Registry.find r k := by
  induction r with
  | nil => rfl
  | cons e rest ih =>
    obtain ⟨k', h⟩ := e
    by_cases hk' : k' = id
    · subst hk'
      simp [Registry.erase, Registry.find, Ne.symm hk]
    · simp [Registry.erase, Registry.find, hk', ih]

theorem Registry.find_erase_self (r : Registry) (id : Nat)
    (hnd : (Registry.keys r).Nodup) : Registry.find (Registry.erase r id) id = none := by
  induction r with
  | nil => rfl
  | cons e rest ih =>
    obtain ⟨k, h⟩ := e
    have hnd' : k ∉ Registry.keys rest ∧ (Registry.keys rest).Nodup := by
      simpa [Registry.keys] using hnd
    by_cases hk : k = id
    · subst hk
      simp only [Registry.erase, if_true]
      exact (Registry.find_eq_none_iff rest k).2 hnd'.1
    · simp [Registry.erase, Registry.find, hk, ih hnd'.2]

theorem Registry.mem_erase (r : Registry) (id : Nat) (e : Nat × Nat)
    (he : e ∈ Registry.erase r id) : e ∈ r := by
  induction r with
  | nil => simp [Registry.erase] at he
  | cons e' rest ih =>
    obtain ⟨k, h⟩ := e'
    by_cases hk : k = id
    · simp only [Registry.erase, if_pos hk] at he
      exact List.mem_cons_of_mem _ he
    · simp only [Registry.erase, if_neg hk, List.mem_cons] at he
      rcases he with he | he
      · exact he ▸ List.mem_cons_self _ _
      · exact List.mem_cons_of_mem _ (ih he)

theorem Registry.keys_erase_nodup (r : Registry) (id : Nat)
    (hnd : (Registry.keys r).Nodup) : (Registry.keys (Registry.erase r id)).Nodup := by
  induction r with
  | nil => simp [Registry.erase, Registry.keys]
  | cons e rest ih =>
    obtain ⟨k, h⟩ := e
    have hnd' : k ∉ Registry.keys rest ∧ (Registry.keys rest).Nodup := by
      simpa [Registry.keys] using hnd
    by_cases hk : k = id
    · simp only [Registry.erase, if_pos hk]
      exact hnd'.2
    · simp only [Registry.erase, if_neg hk, Registry.keys, List.map_cons, List.nodup_cons]
      refine ⟨?_, ih hnd'.2⟩
      intro hmem
      obtain ⟨e, he, hek⟩ := List.mem_map.1 hmem
      exact hnd'.1 (List.mem_map.2 ⟨e, Registry.mem_erase rest id e he, hek⟩)

theorem Registry.keys_insert_nodup (r : Registry) (id h : Nat)
    (hnd : (Registry.keys r).Nodup) : (Registry.keys (Registry.insert r id h)).Nodup := by
  unfold Registry.insert
  split
  · exact hnd
  · rename_i hfree
    simp only [Registry.keys, List.map_cons, List.nodup_cons]
    exact ⟨(Registry.find_eq_none_iff r id).1 hfree, hnd⟩

theorem Registry.mem_insert (r : Registry) (id h : Nat) (e : Nat × Nat)
    (he : e ∈ Registry.insert r id h) : e = (id, h) ∨ e ∈ r := by
  unfold Registry.insert at he
  split at he
  · exact Or.inr he
  · simpa using he

/-! ## Properties of the wait/release handler -/

theorem onHeadersComplete_wait (tryTo : String → Option Nat) (self : Nat)
    (this : WaitReleaseHandler) (msg : HTTPMessage) (reg : Registry) (id : Nat)
    (hm : msg.method = some .GET) (hp : msg.path = "/wait")
    (hid : msg.getQueryParam "id" ≠ "") (hparse : tryTo (msg.getQueryParam "id") = some id)
    (h0 : id ≠ 0) :
    WaitReleaseHandler.onHeadersComplete tryTo self this msg reg =
      match reg.find id with
      | some _ =>
        (⟨"/wait", id⟩, reg,
          [.setIdleTimeout self 120000, .lock, .find id,
            .sendHeaders self 400 "ERROR", .sendBody self "id already exists\n",
            .sendEOM self, .unlock])
      | none =>
        (⟨"/wait", id⟩, reg.insert id self,
          [.setIdleTimeout self 120000, .lock, .find id, .insert id self,
            .sendHeaders self 200 "OK", .sendBody self "waiting\n", .unlock]) := by
  unfold WaitReleaseHandler.onHeadersComplete
  simp only [hm, hp, hparse, hid, h0]
  cases hf : reg.find id <;>
    simp [WaitReleaseHandler.sendErrorResponse, WaitReleaseHandler.sendOkResponse]

theorem onHeadersComplete_release (tryTo : String → Option Nat) (self : Nat)
    (this : WaitReleaseHandler) (msg : HTTPMessage) (reg : Registry) (id : Nat)
    (hm : msg.method = some .GET) (hp : msg.path = "/release")
    (hid : msg.getQueryParam "id" ≠ "") (hparse : tryTo (msg.getQueryParam "id") = some id)
    (h0 : id ≠ 0) :
    WaitReleaseHandler.onHeadersComplete tryTo self this msg reg =
      match reg.find id with
      | none =>
        (⟨"/release", id⟩, reg,
          [.setIdleTimeout self 120000, .lock, .find id,
            .sendHeaders self 400 "ERROR", .sendBody self "id does not exist\n",
            .sendEOM self, .unlock])
      | some waiter =>
        (⟨"/release", id⟩, reg.erase id,
          [.setIdleTimeout self 120000, .lock, .find id, .release waiter, .erase id,
            .sendHeaders self 200 "OK", .sendBody self "released\n", .sendEOM self,
            .unlock]) := by
  unfold WaitReleaseHandler.onHeadersComplete
  simp only [hm, hp, hparse, hid, h0]
  cases hf : reg.find id <;>
    simp [WaitReleaseHandler.sendErrorResponse, WaitReleaseHandler.sendOkResponse]

/-- C4.  For a non-zero id `X` with no entry in the map, `onHeadersComplete`
on a `GET /wait?id=X` by handler `h` inserts `X -> h` (other ids keep what they
had) and sends a 200 `waiting` response with no end-of-message; a later
`onHeadersComplete` on `GET /release?id=X` by a handler `r`, on a map where `X`
is still mapped to `h`, calls `release` on `h` exactly once, sends `r` a 200
`released` response with end-of-message, and leaves the map with no entry for
`X` and every other id as it was. -/
theorem wait_then_release (tryTo : String → Option Nat) (X h r : Nat)
    (hobj robj : WaitReleaseHandler) (msgW msgR : HTTPMessage) (reg reg2 : Registry)
    (hX : X ≠ 0)
    (hWm : msgW.method = some .GET) (hWp : msgW.path = "/wait")
    (hWid : msgW.getQueryParam "id" ≠ "")
    (hWparse : tryTo (msgW.getQueryParam "id") = some X)
    (hRm : msgR.method = some .GET) (hRp : msgR.path = "/release")
    (hRid : msgR.getQueryParam "id" ≠ "")
    (hRparse : tryTo (msgR.getQueryParam "id") = some X)
    (hfree : reg.find X = none)
    (hnd2 : (Registry.keys reg2).Nodup) (hstill : reg2.find X = some h) :
    ((WaitReleaseHandler.onHeadersComplete tryTo h hobj msgW reg).2.1.find X = some h ∧
      (∀ k, k ≠ X →
        (WaitReleaseHandler.onHeadersComplete tryTo h hobj msgW reg).2.1.find k
          = reg.find k) ∧
      (WaitReleaseHandler.onHeadersComplete tryTo h hobj msgW reg).2.2 =
        [.setIdleTimeout h 120000, .lock, .find X, .insert X h,
          .sendHeaders h 200 "OK", .sendBody h "waiting\n", .unlock] ∧
      Effect.sendEOM h ∉ (WaitReleaseHandler.onHeadersComplete tryTo h hobj msgW reg).2.2) ∧
    ((WaitReleaseHandler.onHeadersComplete tryTo r robj msgR reg2).2.2 =
        [.setIdleTimeout r 120000, .lock, .find X, .release h, .erase X,
          .sendHeaders r 200 "OK", .sendBody r "released\n", .sendEOM r, .unlock] ∧
      (WaitReleaseHandler.onHeadersComplete tryTo r robj msgR reg2).2.2.count
        (Effect.release h) = 1 ∧
      (WaitReleaseHandler.onHeadersComplete tryTo r robj msgR reg2).2.1.find X = none ∧
      ∀ k, k ≠ X →
        (WaitReleaseHandler.onHeadersComplete tryTo r robj msgR reg2).2.1.find k
          = reg2.find k) := by
  rw [onHeadersComplete_wait tryTo h hobj msgW reg X hWm hWp hWid hWparse hX,
    onHeadersComplete_release tryTo r robj msgR reg2 X hRm hRp hRid hRparse hX]
  rw [hfree, hstill]
  refine ⟨⟨Registry.find_insert_self reg X h hfree,
    fun k hk => Registry.find_insert_other reg X h k hk, rfl, by simp⟩,
    ⟨rfl, by simp [List.count_cons], Registry.find_erase_self reg2 X hnd2,
    fun k hk => Registry.find_erase_other reg2 X k hk⟩⟩

/-- Witness for C4: handler 1 waits on id 7 in the empty map, handler 2
releases id 7 on the map the wait left; afterwards id 7 has no entry. -/
theorem wait_then_release_witness :
    (WaitReleaseHandler.onHeadersComplete decimalUint 2 ⟨"", 0⟩ (getRequest "/release" "7")
      (WaitReleaseHandler.onHeadersComplete decimalUint 1 ⟨"", 0⟩ (getRequest "/wait" "7")
        []).2.1).2.1.find 7 = none :=
  (wait_then_release decimalUint 7 1 2 ⟨"", 0⟩ ⟨"", 0⟩ (getRequest "/wait" "7")
    (getRequest "/release" "7") []
    (WaitReleaseHandler.onHeadersComplete decimalUint 1 ⟨"", 0⟩ (getRequest "/wait" "7")
      []).2.1
    (by decide) rfl rfl (by decide) (by decide) rfl rfl (by decide) (by decide) rfl
    (by decide) (by decide)).2.2.2.1

/-- C5.  For a non-zero id `X` already mapped to a waiting handler `h1`,
`onHeadersComplete` on `GET /wait?id=X` by a second handler `h2` sends `h2` the
400 response `id already exists`, sends no `waiting` response, and leaves the
map exactly as it was, so `X` is still mapped to `h1`. -/
theorem second_wait_rejected (tryTo : String → Option Nat) (X h1 h2 : Nat)
    (obj2 : WaitReleaseHandler) (msg : HTTPMessage) (reg : Registry)
    (hX : X ≠ 0)
    (hm : msg.method = some .GET) (hp : msg.path = "/wait")
    (hid : msg.getQueryParam "id" ≠ "")
    (hparse : tryTo (msg.getQueryParam "id") = some X)
    (hheld : reg.find X = some h1) :
    (WaitReleaseHandler.onHeadersComplete tryTo h2 obj2 msg reg).2.2 =
      [.setIdleTimeout h2 120000, .lock, .find X,
        .sendHeaders h2 400 "ERROR", .sendBody h2 "id already exists\n", .sendEOM h2,
        .unlock] ∧
    Effect.sendBody h2 "waiting\n" ∉
      (WaitReleaseHandler.onHeadersComplete tryTo h2 obj2 msg reg).2.2 ∧
    (WaitReleaseHandler.onHeadersComplete tryTo h2 obj2 msg reg).2.1 = reg ∧
    (WaitReleaseHandler.onHeadersComplete tryTo h2 obj2 msg reg).2.1.find X = some h1 := by
  rw [onHeadersComplete_wait tryTo h2 obj2 msg reg X hm hp hid hparse hX, hheld]
  exact ⟨rfl, by simp, rfl, hheld⟩

/-- Witness for C5: handler 1 holds id 7 and handler 2 asks to wait on it. -/
theorem second_wait_rejected_witness :
    (WaitReleaseHandler.onHeadersComplete decimalUint 2 ⟨"", 0⟩ (getRequest "/wait" "7")
      [(7, 1)]).2.1 = [(7, 1)] :=
  (second_wait_rejected decimalUint 7 1 2 ⟨"", 0⟩ (getRequest "/wait" "7") [(7, 1)]
    (by decide) rfl rfl (by decide) (by decide) (by decide)).2.2.1

/-- C6.  For a non-zero id `Y` with no entry in the map, `onHeadersComplete` on
`GET /release?id=Y` sends the 400 response `id does not exist`, calls `release`
on no handler, and leaves the whole map unchanged. -/
theorem release_missing_id (tryTo : String → Option Nat) (Y r : Nat)
    (robj : WaitReleaseHandler) (msg : HTTPMessage) (reg : Registry)
    (hY : Y ≠ 0)
    (hm : msg.method = some .GET) (hp : msg.path = "/release")
    (hid : msg.getQueryParam "id" ≠ "")
    (hparse : tryTo (msg.getQueryParam "id") = some Y)
    (hfree : reg.find Y = none) :
    (WaitReleaseHandler.onHeadersComplete tryTo r robj msg reg).2.2 =
      [.setIdleTimeout r 120000, .lock, .find Y,
        .sendHeaders r 400 "ERROR", .sendBody r "id does not exist\n", .sendEOM r,
        .unlock] ∧
    (∀ h, Effect.release h ∉
      (WaitReleaseHandler.onHeadersComplete tryTo r robj msg reg).2.2) ∧
    (WaitReleaseHandler.onHeadersComplete tryTo r robj msg reg).2.1 = reg := by
  rw [onHeadersComplete_release tryTo r robj msg reg Y hm hp hid hparse hY, hfree]
  exact ⟨rfl, by simp, rfl⟩

/-- Witness for C6: id 9 is released while only id 7 is held. -/
theorem release_missing_id_witness :
    (WaitReleaseHandler.onHeadersComplete decimalUint 2 ⟨"", 0⟩ (getRequest "/release" "9")
      [(7, 1)]).2.1 = [(7, 1)] :=
  (release_missing_id decimalUint 9 2 ⟨"", 0⟩ (getRequest "/release" "9") [(7, 1)]
    (by decide) rfl rfl (by decide) (by decide) (by decide)).2.2

theorem maybeCleanup_find_none (this : WaitReleaseHandler) (reg : Registry)
    (hp : this.path_ = "/wait") (h0 : this.id_ ≠ 0) (hnd : (Registry.keys reg).Nodup) :
    (WaitReleaseHandler.maybeCleanup this reg).1.find this.id_ = none := by
  unfold WaitReleaseHandler.maybeCleanup
  rw [if_pos ⟨hp, h0⟩]
  cases hf : reg.find this.id_ with
  | none => exact hf
  | some w => exact Registry.find_erase_self reg this.id_ hnd

/-- C7.  For a non-zero id `X`: after handler `h` has registered itself through
a successful `GET /wait?id=X` and `maybeCleanup` has then run on `h` (on any map
the intervening requests may have left), the map has no entry for `X`, and a
following `GET /release?id=X` gets the 400 response `id does not exist`, with no
call of `release` on `h`. -/
theorem cleanup_then_release_missing (tryTo : String → Option Nat) (X h r : Nat)
    (hobj robj : WaitReleaseHandler) (msgW msgR : HTTPMessage) (reg reg2 : Registry)
    (hX : X ≠ 0)
    (hWm : msgW.method = some .GET) (hWp : msgW.path = "/wait")
    (hWid : msgW.getQueryParam "id" ≠ "")
    (hWparse : tryTo (msgW.getQueryParam "id") = some X)
    (hRm : msgR.method = some .GET) (hRp : msgR.path = "/release")
    (hRid : msgR.getQueryParam "id" ≠ "")
    (hRparse : tryTo (msgR.getQueryParam "id") = some X)
    (hfree : reg.find X = none) (hnd2 : (Registry.keys reg2).Nodup) :
    (WaitReleaseHandler.onHeadersComplete tryTo h hobj msgW reg).2.1.find X = some h ∧
    (WaitReleaseHandler.maybeCleanup
      (WaitReleaseHandler.onHeadersComplete tryTo h hobj msgW reg).1 reg2).1.find X = none ∧
    (WaitReleaseHandler.onHeadersComplete tryTo r robj msgR
      (WaitReleaseHandler.maybeCleanup
        (WaitReleaseHandler.onHeadersComplete tryTo h hobj msgW reg).1 reg2).1).2.2 =
      [.setIdleTimeout r 120000, .lock, .find X,
        .sendHeaders r 400 "ERROR", .sendBody r "id does not exist\n", .sendEOM r,
        .unlock] ∧
    Effect.release h ∉
      (WaitReleaseHandler.onHeadersComplete tryTo r robj msgR
        (WaitReleaseHandler.maybeCleanup
          (WaitReleaseHandler.onHeadersComplete tryTo h hobj msgW reg).1 reg2).1).2.2 := by
  have hgone : (WaitReleaseHandler.maybeCleanup
      (WaitReleaseHandler.onHeadersComplete tryTo h hobj msgW reg).1 reg2).1.find X
      = none := by
    rw [onHeadersComplete_wait tryTo h hobj msgW reg X hWm hWp hWid hWparse hX, hfree]
    exact maybeCleanup_find_none ⟨"/wait", X⟩ reg2 rfl hX hnd2
  refine ⟨?_, hgone, ?_, ?_⟩
  · rw [onHeadersComplete_wait tryTo h hobj msgW reg X hWm hWp hWid hWparse hX, hfree]
    exact Registry.find_insert_self reg X h hfree
  · rw [onHeadersComplete_release tryTo r robj msgR _ X hRm hRp hRid hRparse hX, hgone]
  · rw [onHeadersComplete_release tryTo r robj msgR _ X hRm hRp hRid hRparse hX, hgone]
    simp

/-- Witness for C7: handler 1 waits on id 7 in the empty map and is torn down;
a release of id 7 by handler 2 then finds nothing to release. -/
theorem cleanup_then_release_missing_witness :
    Effect.release 1 ∉
      (WaitReleaseHandler.onHeadersComplete decimalUint 2 ⟨"", 0⟩
        (getRequest "/release" "7")
        (WaitReleaseHandler.maybeCleanup
          (WaitReleaseHandler.onHeadersComplete decimalUint 1 ⟨"", 0⟩
            (getRequest "/wait" "7") []).1
          (WaitReleaseHandler.onHeadersComplete decimalUint 1 ⟨"", 0⟩
            (getRequest "/wait" "7") []).2.1).1).2.2 :=
  (cleanup_then_release_missing decimalUint 7 1 2 ⟨"", 0⟩ ⟨"", 0⟩ (getRequest "/wait" "7")
    (getRequest "/release" "7") []
    (WaitReleaseHandler.onHeadersComplete decimalUint 1 ⟨"", 0⟩ (getRequest "/wait" "7")
      []).2.1
    (by decide) rfl rfl (by decide) (by decide) rfl rfl (by decide) (by decide) rfl
    (by decide)).2.2.2

/-- C8 fails on the code.  Handler 1 waits on id 5.  Handler 2 asks to wait on
id 5 and is rejected with `id already exists`: the map is unchanged, yet the
members of handler 2 now read `path_ = "/wait"`, `id_ = 5`.  `maybeCleanup` on
handler 2 then erases the entry `5 -> 1`, which belongs to handler 1, and a
later `GET /release?id=5` gets `id does not exist` and releases nobody. -/
theorem maybeCleanup_of_rejected_waiter_erases_owner :
    (WaitReleaseHandler.onHeadersComplete decimalUint 2 ⟨"", 0⟩ (getRequest "/wait" "5")
      [(5, 1)]) =
      (⟨"/wait", 5⟩, [(5, 1)],
        [.setIdleTimeout 2 120000, .lock, .find 5, .sendHeaders 2 400 "ERROR",
          .sendBody 2 "id already exists\n", .sendEOM 2, .unlock]) ∧
    WaitReleaseHandler.maybeCleanup ⟨"/wait", 5⟩ [(5, 1)] =
      ([], [.lock, .find 5, .erase 5, .unlock]) ∧
    (WaitReleaseHandler.onHeadersComplete decimalUint 3 ⟨"", 0⟩ (getRequest "/release" "5")
      []) =
      (⟨"/release", 5⟩, [],
        [.setIdleTimeout 3 120000, .lock, .find 5, .sendHeaders 3 400 "ERROR",
          .sendBody 3 "id does not exist\n", .sendEOM 3, .unlock]) := by
  decide

theorem onHeadersComplete_bad_request (tryTo : String → Option Nat) (self : Nat)
    (this : WaitReleaseHandler) (msg : HTTPMessage) (reg : Registry)
    (hbad : msg.method ≠ some .GET ∨ msg.getQueryParam "id" = "" ∨
      (msg.path ≠ "/wait" ∧ msg.path ≠ "/release")) :
    WaitReleaseHandler.onHeadersComplete tryTo self this msg reg =
      (⟨msg.path, this.id_⟩, reg,
        [.sendHeaders self 400 "ERROR", .sendBody self "bad request\n", .sendEOM self]) := by
  unfold WaitReleaseHandler.onHeadersComplete
  simp only [if_pos hbad]
  rfl

theorem onHeadersComplete_invalid_id (tryTo : String → Option Nat) (self : Nat)
    (this : WaitReleaseHandler) (msg : HTTPMessage) (reg : Registry)
    (hm : msg.method = some .GET) (hid : msg.getQueryParam "id" ≠ "")
    (hp : msg.path = "/wait" ∨ msg.path = "/release")
    (hinv : tryTo (msg.getQueryParam "id") = none ∨
      tryTo (msg.getQueryParam "id") = some 0) :
    WaitReleaseHandler.onHeadersComplete tryTo self this msg reg =
      (⟨msg.path, this.id_⟩, reg,
        [.sendHeaders self 400 "ERROR", .sendBody self "invalid id\n", .sendEOM self]) := by
  have hok : ¬ (msg.method ≠ some .GET ∨ msg.getQueryParam "id" = "" ∨
      (msg.path ≠ "/wait" ∧ msg.path ≠ "/release")) := by
    rintro (h | h | ⟨h1, h2⟩)
    · exact h hm
    · exact hid h
    · rcases hp with hp | hp
      · exact h1 hp
      · exact h2 hp
  unfold WaitReleaseHandler.onHeadersComplete
  simp only [if_neg hok]
  rcases hinv with hinv | hinv <;> rw [hinv] <;> rfl

/-- C9.  `onHeadersComplete` makes a call on the map of waiting handlers (a
lookup, an insert or an erase) exactly when the method is `GET`, the path is
`/wait` or `/release`, and the `id` parameter is non-empty and reads as an
unsigned integer other than 0.  Otherwise it sends one 400 response with
end-of-message and nothing else, and the map is unchanged: `bad request` for a
wrong method, an empty id or another path, `invalid id` for an id that does not
read as an unsigned integer or reads as 0. -/
theorem registry_reached_iff_valid (tryTo : String → Option Nat) (self : Nat)
    (this : WaitReleaseHandler) (msg : HTTPMessage) (reg : Registry) :
    ((∃ e ∈ (WaitReleaseHandler.onHeadersComplete tryTo self this msg reg).2.2,
        Effect.isRegistryAccess e = true) ↔
      (msg.method = some .GET ∧ (msg.path = "/wait" ∨ msg.path = "/release") ∧
        msg.getQueryParam "id" ≠ "" ∧
        ∃ n, tryTo (msg.getQueryParam "id") = some n ∧ n ≠ 0)) ∧
    (msg.method ≠ some .GET ∨ msg.getQueryParam "id" = "" ∨
        (msg.path ≠ "/wait" ∧ msg.path ≠ "/release") →
      (WaitReleaseHandler.onHeadersComplete tryTo self this msg reg).2.2 =
        [.sendHeaders self 400 "ERROR", .sendBody self "bad request\n", .sendEOM self] ∧
      (WaitReleaseHandler.onHeadersComplete tryTo self this msg reg).2.1 = reg) ∧
    (msg.method = some .GET → msg.getQueryParam "id" ≠ "" →
        (msg.path = "/wait" ∨ msg.path = "/release") →
        (tryTo (msg.getQueryParam "id") = none ∨
          tryTo (msg.getQueryParam "id") = some 0) →
      (WaitReleaseHandler.onHeadersComplete tryTo self this msg reg).2.2 =
        [.sendHeaders self 400 "ERROR", .sendBody self "invalid id\n", .sendEOM self] ∧
      (WaitReleaseHandler.onHeadersComplete tryTo self this msg reg).2.1 = reg) := by
  refine ⟨⟨?_, ?_⟩, ?_, ?_⟩
  · intro hacc
    by_contra hnv
    by_cases hbad : msg.method ≠ some .GET ∨ msg.getQueryParam "id" = "" ∨
        (msg.path ≠ "/wait" ∧ msg.path ≠ "/release")
    · rw [onHeadersComplete_bad_request tryTo self this msg reg hbad] at hacc
      simp [Effect.isRegistryAccess] at hacc
    · have hm : msg.method = some .GET := by
        by_contra h; exact hbad (Or.inl h)
      have hid : msg.getQueryParam "id" ≠ "" := fun h => hbad (Or.inr (Or.inl h))
      have hp : msg.path = "/wait" ∨ msg.path = "/release" := by
        by_contra h
        exact hbad (Or.inr (Or.inr ⟨fun h1 => h (Or.inl h1), fun h2 => h (Or.inr h2)⟩))
      have hinv : tryTo (msg.getQueryParam "id") = none ∨
          tryTo (msg.getQueryParam "id") = some 0 := by
        cases hq : tryTo (msg.getQueryParam "id") with
        | none => exact Or.inl rfl
        | some n =>
          by_cases hn : n = 0
          · exact Or.inr (by rw [hn])
          · exact absurd ⟨hm, hp, hid, n, hq, hn⟩ hnv
      rw [onHeadersComplete_invalid_id tryTo self this msg reg hm hid hp hinv] at hacc
      simp [Effect.isRegistryAccess] at hacc
  · rintro ⟨hm, hp, hid, n, hq, hn⟩
    refine ⟨Effect.find n, ?_, rfl⟩
    rcases hp with hp | hp
    · rw [onHeadersComplete_wait tryTo self this msg reg n hm hp hid hq hn]
      cases reg.find n <;> simp
    · rw [onHeadersComplete_release tryTo self this msg reg n hm hp hid hq hn]
      cases reg.find n <;> simp
  · intro hbad
    rw [onHeadersComplete_bad_request tryTo self this msg reg hbad]
    exact ⟨rfl, rfl⟩
  · intro hm hid hp hinv
    rw [onHeadersComplete_invalid_id tryTo self this msg reg hm hid hp hinv]
    exact ⟨rfl, rfl⟩

/-- Witness for C9: a `POST /wait?id=7` gets `bad request`, a `GET /wait?id=0`
gets `invalid id`, and neither touches the map. -/
theorem registry_reached_iff_valid_witness :
    ((WaitReleaseHandler.onHeadersComplete decimalUint 1 ⟨"", 0⟩
        { getRequest "/wait" "7" with method := some .POST } [(7, 4)]).2.2 =
        [.sendHeaders 1 400 "ERROR", .sendBody 1 "bad request\n", .sendEOM 1] ∧
      (WaitReleaseHandler.onHeadersComplete decimalUint 1 ⟨"", 0⟩
        { getRequest "/wait" "7" with method := some .POST } [(7, 4)]).2.1 = [(7, 4)]) ∧
    ((WaitReleaseHandler.onHeadersComplete decimalUint 1 ⟨"", 0⟩
        (getRequest "/wait" "0") [(7, 4)]).2.2 =
        [.sendHeaders 1 400 "ERROR", .sendBody 1 "invalid id\n", .sendEOM 1] ∧
      (WaitReleaseHandler.onHeadersComplete decimalUint 1 ⟨"", 0⟩
        (getRequest "/wait" "0") [(7, 4)]).2.1 = [(7, 4)]) :=
  ⟨(registry_reached_iff_valid decimalUint 1 ⟨"", 0⟩
      { getRequest "/wait" "7" with method := some .POST } [(7, 4)]).2.1
      (Or.inl (by decide)),
    (registry_reached_iff_valid decimalUint 1 ⟨"", 0⟩ (getRequest "/wait" "0")
      [(7, 4)]).2.2 rfl (by decide) (Or.inl rfl) (Or.inr (by decide))⟩

/-! ## The invariant of the rendezvous -/

theorem onHeadersComplete_registry_cases (tryTo : String → Option Nat) (self : Nat)
    (this : WaitReleaseHandler) (msg : HTTPMessage) (reg : Registry) :
    (WaitReleaseHandler.onHeadersComplete tryTo self this msg reg).2.1 = reg ∨
    (∃ id, id ≠ 0 ∧
      (WaitReleaseHandler.onHeadersComplete tryTo self this msg reg).2.1
        = reg.insert id self ∧
      (WaitReleaseHandler.onHeadersComplete tryTo self this msg reg).1 = ⟨"/wait", id⟩) ∨
    (∃ id, (WaitReleaseHandler.onHeadersComplete tryTo self this msg reg).2.1
        = reg.erase id) := by
  by_cases hbad : msg.method ≠ some .GET ∨ msg.getQueryParam "id" = "" ∨
      (msg.path ≠ "/wait" ∧ msg.path ≠ "/release")
  · rw [onHeadersComplete_bad_request tryTo self this msg reg hbad]
    exact Or.inl rfl
  · have hm : msg.method = some .GET := by
      by_contra h; exact hbad (Or.inl h)
    have hid : msg.getQueryParam "id" ≠ "" := fun h => hbad (Or.inr (Or.inl h))
    have hp : msg.path = "/wait" ∨ msg.path = "/release" := by
      by_contra h
      exact hbad (Or.inr (Or.inr ⟨fun h1 => h (Or.inl h1), fun h2 => h (Or.inr h2)⟩))
    cases hq : tryTo (msg.getQueryParam "id") with
    | none =>
      rw [onHeadersComplete_invalid_id tryTo self this msg reg hm hid hp (Or.inl hq)]
      exact Or.inl rfl
    | some n =>
      by_cases hn : n = 0
      · rw [onHeadersComplete_invalid_id tryTo self this msg reg hm hid hp
          (Or.inr (by rw [hq, hn]))]
        exact Or.inl rfl
      · rcases hp with hp | hp
        · rw [onHeadersComplete_wait tryTo self this msg reg n hm hp hid hq hn]
          cases reg.find n with
          | none => exact Or.inr (Or.inl ⟨n, hn, rfl, rfl⟩)
          | some w => exact Or.inl rfl
        · rw [onHeadersComplete_release tryTo self this msg reg n hm hp hid hq hn]
          cases reg.find n with
          | none => exact Or.inl rfl
          | some w => exact Or.inr (Or.inr ⟨n, rfl⟩)

theorem maybeCleanup_registry_cases (this : WaitReleaseHandler) (reg : Registry) :
    (WaitReleaseHandler.maybeCleanup this reg).1 = reg ∨
    (WaitReleaseHandler.maybeCleanup this reg).1 = reg.erase this.id_ := by
  unfold WaitReleaseHandler.maybeCleanup
  split_ifs
  · cases reg.find this.id_ with
    | none => exact Or.inl rfl
    | some w => exact Or.inr rfl
  · exact Or.inl rfl

theorem World.Inv_erase (w : World) (id : Nat) (hinv : w.Inv) :
    World.Inv { w with waitingHandlers := Registry.erase w.waitingHandlers id } :=
  ⟨Registry.keys_erase_nodup w.waitingHandlers id hinv.1,
    fun e he => hinv.2 e (Registry.mem_erase w.waitingHandlers id e he)⟩

theorem World.Inv_onHeadersComplete (tryTo : String → Option Nat) (w : World) (self : Nat)
    (msg : HTTPMessage) (hinv : w.Inv) (hfresh : w.started self = false) :
    (w.onHeadersComplete tryTo self msg).Inv := by
  have hold : ∀ e ∈ w.waitingHandlers,
      e.1 ≠ 0 ∧
      (Function.update w.objs self
        (WaitReleaseHandler.onHeadersComplete tryTo self (w.objs self) msg
          w.waitingHandlers).1 e.2).path_ = "/wait" ∧
      (Function.update w.objs self
        (WaitReleaseHandler.onHeadersComplete tryTo self (w.objs self) msg
          w.waitingHandlers).1 e.2).id_ = e.1 ∧
      Function.update w.started self true e.2 = true := by
    intro e he
    obtain ⟨h0, hp, hi, hs⟩ := hinv.2 e he
    have hne : e.2 ≠ self := by
      intro heq
      rw [heq, hfresh] at hs
      cases hs
    rw [Function.update_noteq hne, Function.update_noteq hne]
    exact ⟨h0, hp, hi, hs⟩
  unfold World.onHeadersComplete World.Inv
  rcases onHeadersComplete_registry_cases tryTo self (w.objs self) msg w.waitingHandlers
    with hreg | ⟨id, hid, hreg, hobj⟩ | ⟨id, hreg⟩
  · simp only [hreg]
    exact ⟨hinv.1, hold⟩
  · simp only [hreg]
    refine ⟨Registry.keys_insert_nodup _ id self hinv.1, ?_⟩
    intro e he
    rcases Registry.mem_insert _ id self e he with rfl | he
    · simp [hobj, hid]
    · exact hold e he
  · simp only [hreg]
    exact ⟨Registry.keys_erase_nodup _ id hinv.1,
      fun e he => hold e (Registry.mem_erase _ id e he)⟩

theorem World.Inv_maybeCleanup (w : World) (self : Nat) (hinv : w.Inv) :
    (w.maybeCleanup self).Inv := by
  unfold World.maybeCleanup
  rcases maybeCleanup_registry_cases (w.objs self) w.waitingHandlers with hreg | hreg
  · rw [hreg]; exact hinv
  · rw [hreg]; exact World.Inv_erase w _ hinv

theorem ReachableOnce.inv (tryTo : String → Option Nat) (w : World)
    (hr : ReachableOnce tryTo w) : w.Inv := by
  induction hr with
  | initial objs => exact ⟨by simp [World.initial, Registry.keys], by simp [World.initial]⟩
  | headers w self msg _ hfresh ih =>
    exact World.Inv_onHeadersComplete tryTo w self msg ih hfresh
  | cleanup w self _ ih => exact World.Inv_maybeCleanup w self ih

theorem World.InvKeys_onHeadersComplete (tryTo : String → Option Nat) (w : World)
    (self : Nat) (msg : HTTPMessage) (hinv : w.InvKeys) :
    (w.onHeadersComplete tryTo self msg).InvKeys := by
  unfold World.onHeadersComplete World.InvKeys
  rcases onHeadersComplete_registry_cases tryTo self (w.objs self) msg w.waitingHandlers
    with hreg | ⟨id, hid, hreg, -⟩ | ⟨id, hreg⟩
  · simp only [hreg]
    exact hinv
  · simp only [hreg]
    refine ⟨Registry.keys_insert_nodup _ id self hinv.1, ?_⟩
    intro e he
    rcases Registry.mem_insert _ id self e he with rfl | he
    · exact hid
    · exact hinv.2 e he
  · simp only [hreg]
    exact ⟨Registry.keys_erase_nodup _ id hinv.1,
      fun e he => hinv.2 e (Registry.mem_erase _ id e he)⟩

theorem World.InvKeys_maybeCleanup (w : World) (self : Nat) (hinv : w.InvKeys) :
    (w.maybeCleanup self).InvKeys := by
  unfold World.maybeCleanup World.InvKeys
  rcases maybeCleanup_registry_cases (w.objs self) w.waitingHandlers with hreg | hreg
  · simp only [hreg]
    exact hinv
  · simp only [hreg]
    exact ⟨Registry.keys_erase_nodup _ _ hinv.1,
      fun e he => hinv.2 e (Registry.mem_erase _ _ e he)⟩

theorem Reachable.invKeys (tryTo : String → Option Nat) (w : World)
    (hr : Reachable tryTo w) : w.InvKeys := by
  induction hr with
  | initial objs => exact ⟨by simp [World.initial, Registry.keys], by simp [World.initial]⟩
  | headers w self msg _ ih => exact World.InvKeys_onHeadersComplete tryTo w self msg ih
  | cleanup w self _ ih => exact World.InvKeys_maybeCleanup w self ih

theorem ReachableOnce.reachable (tryTo : String → Option Nat) (w : World)
    (hr : ReachableOnce tryTo w) : Reachable tryTo w := by
  induction hr with
  | initial objs => exact Reachable.initial objs
  | headers w self msg _ _ ih => exact Reachable.headers w self msg ih
  | cleanup w self _ ih => exact Reachable.cleanup w self ih

/-- C10 (as amended).  In every state reachable from the empty map by any
sequence of `onHeadersComplete` and `maybeCleanup` steps, every id has at most
one entry and every registered id is non-zero.  In every state reached by a
sequence in which no handler is given request headers twice, every entry
`id -> h` moreover names a handler whose recorded path is `/wait` and whose
recorded id is that `id`. -/
theorem reachable_registry_invariant (tryTo : String → Option Nat) (w : World) :
    (Reachable tryTo w →
      (∀ id, (Registry.keys w.waitingHandlers).count id ≤ 1) ∧
      (∀ id h, (id, h) ∈ w.waitingHandlers → id ≠ 0)) ∧
    (ReachableOnce tryTo w →
      ∀ id h, (id, h) ∈ w.waitingHandlers →
        (w.objs h).path_ = "/wait" ∧ (w.objs h).id_ = id) := by
  constructor
  · intro hr
    have hinv := Reachable.invKeys tryTo w hr
    exact ⟨fun id => List.nodup_iff_count_le_one.1 hinv.1 id,
      fun id h hmem => hinv.2 (id, h) hmem⟩
  · intro hr id h hmem
    obtain ⟨-, hp, hi, -⟩ := (ReachableOnce.inv tryTo w hr).2 (id, h) hmem
    exact ⟨hp, hi⟩

/-- Witness for C10 (as amended).  Handler 1 waits on id 7 and is then given a
release of id 9: the entry `7 -> 1` has a non-zero id.  Handler 1 waits on id
7 and handler 2 is torn down: the entry `7 -> 1` names a handler that recorded
`/wait` and 7. -/
theorem reachable_registry_invariant_witness :
    7 ≠ 0 ∧
    ((((World.initial fun _ => ⟨"", 0⟩).onHeadersComplete decimalUint 1
      (getRequest "/wait" "7")).maybeCleanup 2).objs 1).path_ = "/wait" ∧
    ((((World.initial fun _ => ⟨"", 0⟩).onHeadersComplete decimalUint 1
      (getRequest "/wait" "7")).maybeCleanup 2).objs 1).id_ = 7 :=
  ⟨((reachable_registry_invariant decimalUint
      (((World.initial fun _ => ⟨"", 0⟩).onHeadersComplete decimalUint 1
        (getRequest "/wait" "7")).onHeadersComplete decimalUint 1
        (getRequest "/release" "9"))).1
      (Reachable.headers _ 1 (getRequest "/release" "9")
        (Reachable.headers (World.initial fun _ => ⟨"", 0⟩) 1 (getRequest "/wait" "7")
          (Reachable.initial _)))).2 7 1 (by decide),
    (reachable_registry_invariant decimalUint
      (((World.initial fun _ => ⟨"", 0⟩).onHeadersComplete decimalUint 1
        (getRequest "/wait" "7")).maybeCleanup 2)).2
      (ReachableOnce.cleanup _ 2
        (ReachableOnce.headers (World.initial fun _ => ⟨"", 0⟩) 1
          (getRequest "/wait" "7") (ReachableOnce.initial _) rfl)) 7 1 (by decide)⟩

/-- C10 fails as stated.  Handler 1 is given `GET /wait?id=7` and then
`GET /release?id=9`: the second call records `path_ = "/release"` and
`id_ = 9` before it answers `id does not exist`, and the entry `7 -> 1` is
still in the map.  The state is reachable, and its entry names a handler whose
recorded path is not `/wait` and whose recorded id is not 7. -/
theorem second_headers_break_recorded_path :
    Reachable decimalUint
      (((World.initial fun _ => ⟨"", 0⟩).onHeadersComplete decimalUint 1
        (getRequest "/wait" "7")).onHeadersComplete decimalUint 1
        (getRequest "/release" "9")) ∧
    (7, 1) ∈ (((World.initial fun _ => ⟨"", 0⟩).onHeadersComplete decimalUint 1
        (getRequest "/wait" "7")).onHeadersComplete decimalUint 1
        (getRequest "/release" "9")).waitingHandlers ∧
    ((((World.initial fun _ => ⟨"", 0⟩).onHeadersComplete decimalUint 1
        (getRequest "/wait" "7")).onHeadersComplete decimalUint 1
        (getRequest "/release" "9")).objs 1) = ⟨"/release", 9⟩ :=
  ⟨Reachable.headers _ 1 (getRequest "/release" "9")
      (Reachable.headers (World.initial fun _ => ⟨"", 0⟩) 1 (getRequest "/wait" "7")
        (Reachable.initial _)),
    by decide, by decide⟩

/-! ## Properties of the decimal writer -/

theorem digitChar_isdigit (d : Nat) (hd : d < 10) :
    isdigit (Nat.digitChar d) = true ∧ (Nat.digitChar d).toNat - '0'.toNat = d := by
  interval_cases d <;> decide

theorem decimalValue_append (xs : List Char) (c : Char) (acc : Nat) :
    decimalValue (xs ++ [c]) acc =
      (decimalValue xs acc).bind fun v =>
        if isdigit c = true then some (v * 10 + (c.toNat - '0'.toNat)) else none := by
  induction xs generalizing acc with
  | nil =>
    by_cases hc : isdigit c = true <;> simp [decimalValue, hc]
  | cons x xs ih =>
    by_cases hx : isdigit x = true
    · simp only [List.cons_append, decimalValue, if_pos hx]
      exact ih _
    · simp [decimalValue, hx]

theorem decimalValue_decimalDigits (fuel n : Nat) (hfuel : n < fuel) :
    decimalValue (decimalDigits fuel n) 0 = some n := by
  induction fuel generalizing n with
  | zero => omega
  | succ fuel ih =>
    unfold decimalDigits
    split_ifs with h10
    · have hv := (digitChar_isdigit n h10).2
      simp only [decimalValue, (digitChar_isdigit n h10).1, if_true, hv]
      simp
    · have hlt : n % 10 < 10 := Nat.mod_lt n (by decide)
      rw [decimalValue_append, ih (n / 10) (by omega)]
      simp only [Option.some_bind, (digitChar_isdigit _ hlt).1, if_true,
        (digitChar_isdigit _ hlt).2]
      congr 1
      omega

theorem decimal_injective (i j : Nat) (h : decimal i = decimal j) : i = j := by
  have hi := decimalValue_decimalDigits (i + 1) i (Nat.lt_succ_self i)
  have hj := decimalValue_decimalDigits (j + 1) j (Nat.lt_succ_self j)
  have hd : decimalDigits (i + 1) i = decimalDigits (j + 1) j :=
    congrArg String.data h
  rw [hd, hj] at hi
  exact (Option.some.inj hi).symm

theorem pushedResourceUrl_injective (url : String) (i j : Nat)
    (h : pushedResourceUrl url i = pushedResourceUrl url j) : i = j := by
  apply decimal_injective
  have hd := congrArg String.data h
  simp only [pushedResourceUrl, String.data_append] at hd
  exact String.ext (List.append_cancel_left hd)

/-! ## Properties of the push handler -/

theorem pushRound_eq (this : ServerPushHandler) (url body : String) (i : Nat) :
    [PushEffect.newPushedTransaction i] ++
        this.sendPushPromise (.pushed i) (pushedResourceUrl url i) ++
        this.sendPushResponse (.pushed i) body true =
      pushedStream this.version_ url body i := by
  have hu : pushedResourceUrl url i = url ++ "/pushed" ++ decimal i := by
    simp only [pushedResourceUrl, String.append_assoc]
    rfl
  simp [ServerPushHandler.sendPushPromise, ServerPushHandler.sendPushResponse,
    pushedStream, hu]

theorem pushLoop_eq (this : ServerPushHandler) (url body : String) (k i : Nat) :
    ServerPushHandler.pushLoop this url body k i =
      (List.range' i k).flatMap (pushedStream this.version_ url body) := by
  induction k generalizing i with
  | zero => simp [ServerPushHandler.pushLoop]
  | succ k ih =>
    rw [ServerPushHandler.pushLoop, pushRound_eq, ih, List.range'_succ,
      List.flatMap_cons]

theorem requestedSize_eq (tryTo : String → Option Int) (path : String) :
    requestedSize tryTo path =
      if 2 < (split path).length then (tryTo ((split path).getD 2 "")).getD 0 else 0 := by
  unfold requestedSize
  split_ifs with h
  · simp [List.getD, List.getElem?_eq_getElem h]
  · simp [List.getElem?_eq_none (Nat.le_of_not_lt h)]

theorem repeatCount_eq (tryTo : String → Option Int) (path : String) :
    repeatCount tryTo path =
      if 3 < (split path).length then (tryTo ((split path).getD 3 "")).getD 1 else 1 := by
  unfold repeatCount
  split_ifs with h
  · simp [List.getD, List.getElem?_eq_getElem h]
  · simp [List.getElem?_eq_none (Nat.le_of_not_lt h)]

theorem onHeadersComplete_get (tryTo : String → Option Int) (this : ServerPushHandler)
    (msg : HTTPMessage) (g : String) (hm : msg.method = some .GET) :
    ServerPushHandler.onHeadersComplete tryTo this msg g =
      if requestedSize tryTo msg.path < 0 then none
      else
        some (⟨msg.path, this.version_⟩,
          (if requestedSize tryTo msg.path = 0 then g
            else filler (requestedSize tryTo msg.path).toNat),
          (List.range (repeatCount tryTo msg.path).toNat).flatMap
              (pushedStream this.version_ msg.url
                (if requestedSize tryTo msg.path = 0 then g
                  else filler (requestedSize tryTo msg.path).toNat)) ++
            directResponse this.version_) := by
  have hnot : ¬ msg.method ≠ some HTTPMethod.GET := fun h => h hm
  have hresized :
      (if 2 < (split msg.path).length then
          if (tryTo ((split msg.path).getD 2 "")).getD 0 ≠ 0 then
            stdStringFill ((tryTo ((split msg.path).getD 2 "")).getD 0)
          else some g
        else some g) =
      if requestedSize tryTo msg.path < 0 then none
      else some (if requestedSize tryTo msg.path = 0 then g
        else filler (requestedSize tryTo msg.path).toNat) := by
    rw [requestedSize_eq]
    by_cases h2 : 2 < (split msg.path).length
    · simp only [if_pos h2]
      generalize (tryTo ((split msg.path).getD 2 "")).getD 0 = sz
      by_cases h0 : sz = 0
      · simp [h0]
      · by_cases hneg : sz < 0
        · simp [h0, hneg, stdStringFill]
        · simp [h0, hneg, stdStringFill, filler]
    · simp [h2]
  unfold ServerPushHandler.onHeadersComplete
  simp only [if_neg hnot, hresized, ← repeatCount_eq]
  by_cases hneg : requestedSize tryTo msg.path < 0
  · simp [hneg]
  · simp only [if_neg hneg, pushLoop_eq, List.range_eq_range']
    rfl

theorem promiseUrls_streams (version url body : String) (l : List Nat)
    (rest : List PushEffect) :
    promiseUrls (l.flatMap (pushedStream version url body) ++ rest) =
      l.map (pushedResourceUrl url) ++ promiseUrls rest := by
  induction l with
  | nil => simp
  | cons i l ih =>
    have hu : pushedResourceUrl url i = url ++ "/pushed" ++ decimal i := by
      simp only [pushedResourceUrl, String.append_assoc]
      rfl
    simp only [List.flatMap_cons, List.append_assoc, List.map_cons, List.cons_append]
    simp only [pushedStream, List.cons_append, List.nil_append, List.append_eq,
      promiseUrls, ih, hu]

theorem pushedBodies_streams (version url body : String) (l : List Nat)
    (rest : List PushEffect) :
    pushedBodies (l.flatMap (pushedStream version url body) ++ rest) =
      List.replicate l.length
          ("I AM THE PUSHED RESPONSE AND I AM NOT RESPONSIBLE: " ++ body) ++
        pushedBodies rest := by
  induction l with
  | nil => simp
  | cons i l ih =>
    simp only [List.flatMap_cons, List.append_assoc, List.length_cons,
      List.replicate_succ, List.cons_append]
    simp only [pushedStream, List.cons_append, List.nil_append, List.append_eq,
      pushedBodies, ih]

theorem newPushed_streams (version url body : String) (l : List Nat)
    (rest : List PushEffect) :
    (l.flatMap (pushedStream version url body) ++ rest).countP
        PushEffect.isNewPushedTransaction =
      l.length + rest.countP PushEffect.isNewPushedTransaction := by
  induction l with
  | nil => simp
  | cons i l ih =>
    simp only [List.flatMap_cons, List.append_assoc, List.length_cons]
    simp only [pushedStream, List.cons_append, List.nil_append, List.countP_cons, ih,
      PushEffect.isNewPushedTransaction]
    simp
    omega

/-- The push handler on a `GET` request whose requested size is not negative:
with `n` the repeat count (0 when it is negative), the calls are the first `n`
pushed streams in the order 0, 1, ..., n-1 and then the 200 response on the
original transaction, and exactly `n` pushed transactions are opened. -/
theorem pushes_emitted_in_order (tryTo : String → Option Int) (this : ServerPushHandler)
    (msg : HTTPMessage) (g : String) (hm : msg.method = some .GET)
    (hsize : 0 ≤ requestedSize tryTo msg.path) :
    ∃ body, ServerPushHandler.onHeadersComplete tryTo this msg g =
        some (⟨msg.path, this.version_⟩, body,
          (List.range (repeatCount tryTo msg.path).toNat).flatMap
              (pushedStream this.version_ msg.url body) ++
            directResponse this.version_) ∧
      ((List.range (repeatCount tryTo msg.path).toNat).flatMap
              (pushedStream this.version_ msg.url body) ++
            directResponse this.version_).countP PushEffect.isNewPushedTransaction =
        (repeatCount tryTo msg.path).toNat := by
  rw [onHeadersComplete_get tryTo this msg g hm, if_neg (not_lt.2 hsize)]
  refine ⟨_, rfl, ?_⟩
  rw [newPushed_streams]
  simp [directResponse, PushEffect.isNewPushedTransaction]

/-- C11 fails on the code.  For the `GET` request `/push/100/3` the handler
does emit the pushed streams 0, 1, 2 and then the direct response.  For the
`GET` request for `/push/N/3` with `N = -1`, whose repeat count is 3, the
requested size -1 is handed to `std::string(responseSize, 'a')`, the exception thrown leaves the
`noexcept` method and the process ends: no pushed stream and no response. -/
theorem push_negative_size_terminates :
    ((ServerPushHandler.onHeadersComplete decimalInt ⟨"", "1.1"⟩
        (plainRequest (some .GET) "/push/100/3") "cat").map fun r => promiseUrls r.2.2) =
      some ["/push/100/3/pushed0", "/push/100/3/pushed1", "/push/100/3/pushed2"] ∧
    repeatCount decimalInt "/push/-1/3" = 3 ∧
    requestedSize decimalInt "/push/-1/3" = -1 ∧
    ServerPushHandler.onHeadersComplete decimalInt ⟨"", "1.1"⟩
      (plainRequest (some .GET) "/push/-1/3") "cat" = none := by
  decide

theorem onHeadersComplete_non_get (tryTo : String → Option Int)
    (this : ServerPushHandler) (msg : HTTPMessage) (g : String)
    (hm : msg.method ≠ some .GET) :
    ServerPushHandler.onHeadersComplete tryTo this msg g =
      some (⟨msg.path, this.version_⟩, g,
        [.sendHeaders .original (.response 400 "ERROR" this.version_ false false),
          .sendBody .original "bad request\n", .sendEOM .original]) := by
  unfold ServerPushHandler.onHeadersComplete
  simp only [if_pos hm]
  rfl

theorem range_map_nodup (url : String) (n : Nat) :
    ((List.range n).map (pushedResourceUrl url)).Nodup :=
  (List.nodup_range n).map fun i j h => pushedResourceUrl_injective url i j h

/-- C12.  The push-promise URLs of one request are unique: for every request
URL `u`, the URLs `u + "/pushed" + decimal(i)` for different indices differ;
and whenever `ServerPushHandler::onHeadersComplete` returns, the URLs of the
promises it sent are those of the indices 0, 1, ..., n-1 for some `n`, each
computed from the request URL and the index alone, with no URL twice. -/
theorem push_promise_urls_unique (tryTo : String → Option Int)
    (this : ServerPushHandler) (msg : HTTPMessage) (g : String)
    (r : ServerPushHandler × String × List PushEffect)
    (hr : ServerPushHandler.onHeadersComplete tryTo this msg g = some r) :
    (∀ u i j, i ≠ j → pushedResourceUrl u i ≠ pushedResourceUrl u j) ∧
    (∃ n, promiseUrls r.2.2 = (List.range n).map (pushedResourceUrl msg.url)) ∧
    (promiseUrls r.2.2).Nodup := by
  have hurls : ∃ n, promiseUrls r.2.2 = (List.range n).map (pushedResourceUrl msg.url) := by
    by_cases hm : msg.method = some .GET
    · rw [onHeadersComplete_get tryTo this msg g hm] at hr
      by_cases hneg : requestedSize tryTo msg.path < 0
      · rw [if_pos hneg] at hr
        cases hr
      · rw [if_neg hneg] at hr
        cases hr
        refine ⟨(repeatCount tryTo msg.path).toNat, ?_⟩
        rw [promiseUrls_streams]
        simp [directResponse, promiseUrls]
    · rw [onHeadersComplete_non_get tryTo this msg g hm] at hr
      cases hr
      exact ⟨0, by simp [promiseUrls]⟩
  refine ⟨fun u i j hij h => hij (pushedResourceUrl_injective u i j h), hurls, ?_⟩
  obtain ⟨n, hn⟩ := hurls
  rw [hn]
  exact range_map_nodup msg.url n

/-- Witness for C12: the request `/push/2/3` sends three promises, no URL
twice, and the URLs of the indices 0 and 1 differ. -/
theorem push_promise_urls_unique_witness :
    pushedResourceUrl "/push/2/3" 0 ≠ pushedResourceUrl "/push/2/3" 1 ∧
    (promiseUrls
      (ServerPushHandler.pushLoop ⟨"/push/2/3", "1.1"⟩ "/push/2/3" "aa" 3 0 ++
        ServerPushHandler.sendOkResponse ⟨"/push/2/3", "1.1"⟩
          "I AM THE REQUEST RESPONSE AND I AM RESPONSIBLE\n" true)).Nodup :=
  ⟨(push_promise_urls_unique decimalInt ⟨"", "1.1"⟩
      (plainRequest (some .GET) "/push/2/3") "cat"
      (⟨"/push/2/3", "1.1"⟩, "aa",
        ServerPushHandler.pushLoop ⟨"/push/2/3", "1.1"⟩ "/push/2/3" "aa" 3 0 ++
          ServerPushHandler.sendOkResponse ⟨"/push/2/3", "1.1"⟩
            "I AM THE REQUEST RESPONSE AND I AM RESPONSIBLE\n" true)
      (by decide)).1 "/push/2/3" 0 1 (by decide),
    (push_promise_urls_unique decimalInt ⟨"", "1.1"⟩
      (plainRequest (some .GET) "/push/2/3") "cat"
      (⟨"/push/2/3", "1.1"⟩, "aa",
        ServerPushHandler.pushLoop ⟨"/push/2/3", "1.1"⟩ "/push/2/3" "aa" 3 0 ++
          ServerPushHandler.sendOkResponse ⟨"/push/2/3", "1.1"⟩
            "I AM THE REQUEST RESPONSE AND I AM RESPONSIBLE\n" true)
      (by decide)).2.2⟩

/-- C14.  For a request whose method is not `GET`, whatever its path,
`ServerPushHandler::onHeadersComplete` sends one 400 response with the body
`bad request` and end-of-message on the original transaction and makes no
other call: no pushed transaction is opened, no 200 response is sent, and the
cached push body is unchanged. -/
theorem push_non_get_rejected (tryTo : String → Option Int)
    (this : ServerPushHandler) (msg : HTTPMessage) (g : String)
    (hm : msg.method ≠ some .GET) :
    ∃ trace,
      ServerPushHandler.onHeadersComplete tryTo this msg g =
        some (⟨msg.path, this.version_⟩, g, trace) ∧
      trace =
        [.sendHeaders .original (.response 400 "ERROR" this.version_ false false),
          .sendBody .original "bad request\n", .sendEOM .original] ∧
      (∀ e ∈ trace, e.isNewPushedTransaction = false ∧ e.isOkHeaders = false) := by
  refine ⟨_, onHeadersComplete_non_get tryTo this msg g hm, rfl, ?_⟩
  intro e he
  simp only [List.mem_cons, List.mem_singleton, List.not_mem_nil, or_false] at he
  rcases he with rfl | rfl | rfl <;> exact ⟨rfl, rfl⟩

/-- Witness for C14: a `POST` to `/push/100/3` is answered with the 400
response and leaves the cached push body `cat` in place. -/
theorem push_non_get_rejected_witness :
    ∃ trace,
      ServerPushHandler.onHeadersComplete decimalInt ⟨"", "1.1"⟩
          (plainRequest (some .POST) "/push/100/3") "cat" =
        some (⟨"/push/100/3", "1.1"⟩, "cat", trace) ∧
      trace =
        [.sendHeaders .original (.response 400 "ERROR" "1.1" false false),
          .sendBody .original "bad request\n", .sendEOM .original] ∧
      (∀ e ∈ trace, e.isNewPushedTransaction = false ∧ e.isOkHeaders = false) :=
  push_non_get_rejected decimalInt ⟨"", "1.1"⟩ (plainRequest (some .POST) "/push/100/3")
    "cat" (by decide)

theorem requestedSize_of_piece (tryTo : String → Option Int) (path piece : String)
    (N : Int) (hpiece : (split path)[2]? = some piece) (hparse : tryTo piece = some N) :
    requestedSize tryTo path = N := by
  simp [requestedSize, hpiece, hparse]

theorem requestedSize_of_no_size (tryTo : String → Option Int) (path : String)
    (h : (split path)[2]? = none ∨
      ∃ piece, (split path)[2]? = some piece ∧
        (tryTo piece = none ∨ tryTo piece = some 0)) :
    requestedSize tryTo path = 0 := by
  rcases h with h | ⟨piece, hp, h | h⟩
  · simp [requestedSize, h]
  · simp [requestedSize, h, hp]
  · simp [requestedSize, h, hp]

theorem filler_ne_empty (n : Nat) (hn : 0 < n) : filler n ≠ "" := by
  intro h
  have hl := congrArg String.length h
  simp [filler, String.length] at hl
  omega

theorem onHeadersComplete_keeps_body (tryTo : String → Option Int)
    (this : ServerPushHandler) (msg : HTTPMessage) (g : String)
    (hm : msg.method = some .GET) (h0 : requestedSize tryTo msg.path = 0) :
    ∃ trace,
      ServerPushHandler.onHeadersComplete tryTo this msg g =
        some (⟨msg.path, this.version_⟩, g, trace) ∧
      pushedBodies trace =
        List.replicate (repeatCount tryTo msg.path).toNat
          ("I AM THE PUSHED RESPONSE AND I AM NOT RESPONSIBLE: " ++ g) := by
  rw [onHeadersComplete_get tryTo this msg g hm, h0]
  refine ⟨_, rfl, ?_⟩
  simp only [if_true]
  rw [pushedBodies_streams]
  simp [directResponse, pushedBodies]

/-- C13 (as amended).  For a `GET` push request whose size piece (the third
piece of the path) reads as a positive integer `N`,
`ServerPushHandler::onHeadersComplete` sets the cached push body to exactly `N`
bytes `a`, and every pushed response body of that request is the fixed prefix
followed by those `N` bytes; the constructor run for a later request keeps
that body, and so does a later request that supplies no size, whose pushed
bodies carry it.  When the size piece is absent, does not read as an integer,
or is 0, the cached push body is left unchanged. -/
theorem push_size_sets_cached_body (tryTo : String → Option Int)
    (this : ServerPushHandler) (msg : HTTPMessage) (g : String)
    (hm : msg.method = some .GET) :
    (∀ (piece : String) (N : Int), (split msg.path)[2]? = some piece →
      tryTo piece = some N → 0 < N →
      (∃ trace,
        ServerPushHandler.onHeadersComplete tryTo this msg g =
          some (⟨msg.path, this.version_⟩, filler N.toNat, trace) ∧
        pushedBodies trace =
          List.replicate (repeatCount tryTo msg.path).toNat
            ("I AM THE PUSHED RESPONSE AND I AM NOT RESPONSIBLE: " ++ filler N.toNat)) ∧
      (∀ (pushFile : Option String) (version : String),
        ServerPushHandler.new pushFile version (filler N.toNat) =
          some (Handler.ServerPushHandler version, filler N.toNat)) ∧
      (∀ (later : ServerPushHandler) (msg2 : HTTPMessage),
        msg2.method = some .GET → (split msg2.path)[2]? = none →
        ∃ trace,
          ServerPushHandler.onHeadersComplete tryTo later msg2 (filler N.toNat) =
            some (⟨msg2.path, later.version_⟩, filler N.toNat, trace) ∧
          pushedBodies trace =
            List.replicate (repeatCount tryTo msg2.path).toNat
              ("I AM THE PUSHED RESPONSE AND I AM NOT RESPONSIBLE: " ++
                filler N.toNat))) ∧
    (((split msg.path)[2]? = none ∨
        ∃ piece, (split msg.path)[2]? = some piece ∧
          (tryTo piece = none ∨ tryTo piece = some 0)) →
      ∃ trace,
        ServerPushHandler.onHeadersComplete tryTo this msg g =
          some (⟨msg.path, this.version_⟩, g, trace)) := by
  refine ⟨?_, ?_⟩
  · intro piece N hpiece hparse hN
    have hsz := requestedSize_of_piece tryTo msg.path piece N hpiece hparse
    refine ⟨?_, ?_, ?_⟩
    · rw [onHeadersComplete_get tryTo this msg g hm, hsz, if_neg (by omega),
        if_neg (by omega)]
      refine ⟨_, rfl, ?_⟩
      rw [pushedBodies_streams]
      simp [directResponse, pushedBodies]
    · intro pushFile version
      have hne := filler_ne_empty N.toNat (by omega)
      simp [ServerPushHandler.new, hne]
    · intro later msg2 hm2 hnone
      exact onHeadersComplete_keeps_body tryTo later msg2 _ hm2
        (requestedSize_of_no_size tryTo msg2.path (Or.inl hnone))
  · intro hno
    obtain ⟨trace, ht, -⟩ := onHeadersComplete_keeps_body tryTo this msg g hm
      (requestedSize_of_no_size tryTo msg.path hno)
    exact ⟨trace, ht⟩

/-- Witness for C13 (as amended): `/push/2` sets the cached push body to `aa`,
and `/push` leaves the cached push body `cat` as it is. -/
theorem push_size_sets_cached_body_witness :
    (∃ trace,
      ServerPushHandler.onHeadersComplete decimalInt ⟨"", "1.1"⟩
          (plainRequest (some .GET) "/push/2") "cat" =
        some (⟨"/push/2", "1.1"⟩, filler (2 : Int).toNat, trace) ∧
      pushedBodies trace =
        List.replicate (repeatCount decimalInt "/push/2").toNat
          ("I AM THE PUSHED RESPONSE AND I AM NOT RESPONSIBLE: " ++
            filler (2 : Int).toNat)) ∧
    ∃ trace,
      ServerPushHandler.onHeadersComplete decimalInt ⟨"", "1.1"⟩
          (plainRequest (some .GET) "/push") "cat" =
        some (⟨"/push", "1.1"⟩, "cat", trace) :=
  ⟨((push_size_sets_cached_body decimalInt ⟨"", "1.1"⟩
      (plainRequest (some .GET) "/push/2") "cat" rfl).1 "2" 2 (by decide) (by decide)
      (by decide)).1,
    (push_size_sets_cached_body decimalInt ⟨"", "1.1"⟩
      (plainRequest (some .GET) "/push") "cat" rfl).2 (Or.inl (by decide))⟩

/-- C13 fails as stated: the size piece of `/push/N` with `N = -1` reads as the
non-zero integer -1, and the handler does not set the cached push body to
anything: the process ends inside `std::string(responseSize, 'a')`. -/
theorem push_size_counterexample :
    (split "/push/-1")[2]? = some "-1" ∧
    decimalInt "-1" = some (-1) ∧
    ¬ ∃ r, ServerPushHandler.onHeadersComplete decimalInt ⟨"", "1.1"⟩
      (plainRequest (some .GET) "/push/-1") "cat" = some r := by
  refine ⟨by decide, by decide, ?_⟩
  rintro ⟨r, hr⟩
  have e : ServerPushHandler.onHeadersComplete decimalInt ⟨"", "1.1"⟩
      (plainRequest (some .GET) "/push/-1") "cat" = none := by decide
  rw [e] at hr
  cases hr

/-! ## Properties of the supported versions -/

/-- C15 (as amended).  Whatever the optional draft version `d` and the flag
`useDraftFirst`: the list is `[MVFST, MVFST_OLD]` when `d` is not given; when
`d` is given it has exactly three elements, `d` followed by `MVFST`,
`MVFST_OLD` if `useDraftFirst` is true and `MVFST`, `MVFST_OLD` followed by `d`
otherwise; `MVFST` and `MVFST_OLD` always stand next to each other in that
order; and when `d` is not given or is a version other than `MVFST` and
`MVFST_OLD`, each of `MVFST`, `MVFST_OLD` and `d` occurs exactly once. -/
theorem supported_versions_layout (d : Option QuicVersion) (useDraftFirst : Bool) :
    (d = none → HQServer.versions d useDraftFirst = [.MVFST, .MVFST_OLD]) ∧
    (∀ v, d = some v →
      (HQServer.versions d useDraftFirst).length = 3 ∧
      (useDraftFirst = true →
        HQServer.versions d useDraftFirst = [v, .MVFST, .MVFST_OLD]) ∧
      (useDraftFirst = false →
        HQServer.versions d useDraftFirst = [.MVFST, .MVFST_OLD, v]) ∧
      (v ≠ .MVFST → v ≠ .MVFST_OLD →
        (HQServer.versions d useDraftFirst).count v = 1)) ∧
    (∃ before after, HQServer.versions d useDraftFirst =
      before ++ [.MVFST, .MVFST_OLD] ++ after) ∧
    (d ≠ some .MVFST → d ≠ some .MVFST_OLD →
      (HQServer.versions d useDraftFirst).count .MVFST = 1 ∧
      (HQServer.versions d useDraftFirst).count .MVFST_OLD = 1) := by
  refine ⟨?_, ?_, ?_, ?_⟩
  · intro hd
    subst hd
    cases useDraftFirst <;> rfl
  · intro v hd
    subst hd
    refine ⟨?_, ?_, ?_, ?_⟩
    · cases useDraftFirst <;> rfl
    · intro hu
      subst hu
      rfl
    · intro hu
      subst hu
      rfl
    · intro h1 h2
      cases useDraftFirst <;>
        simp [HQServer.versions, List.count_cons, Ne.symm h1, Ne.symm h2]
  · rcases d with _ | v <;> cases useDraftFirst
    · exact ⟨[], [], rfl⟩
    · exact ⟨[], [], rfl⟩
    · exact ⟨[], [v], rfl⟩
    · exact ⟨[v], [], rfl⟩
  · intro h1 h2
    rcases d with _ | v
    · cases useDraftFirst <;> decide
    · have h1' : v ≠ .MVFST := fun h => h1 (by rw [h])
      have h2' : v ≠ .MVFST_OLD := fun h => h2 (by rw [h])
      cases useDraftFirst <;> simp [HQServer.versions, List.count_cons, h1', h2']

/-- Witness for C15 (as amended): with the draft version numbered 29 put
last, without a draft version, and with a draft version put first. -/
theorem supported_versions_layout_witness :
    HQServer.versions (some (.other 29)) false = [.MVFST, .MVFST_OLD, .other 29] ∧
    (HQServer.versions (some (.other 29)) false).count (.other 29) = 1 ∧
    HQServer.versions none true = [.MVFST, .MVFST_OLD] ∧
    ((HQServer.versions (some (.other 29)) true).count .MVFST = 1 ∧
      (HQServer.versions (some (.other 29)) true).count .MVFST_OLD = 1) :=
  ⟨((supported_versions_layout (some (.other 29)) false).2.1 (.other 29) rfl).2.2.1 rfl,
    ((supported_versions_layout (some (.other 29)) false).2.1 (.other 29) rfl).2.2.2
      (by decide) (by decide),
    (supported_versions_layout none true).1 rfl,
    (supported_versions_layout (some (.other 29)) true).2.2.2 (by decide) (by decide)⟩

/-- C15 fails as stated: with `MVFST` itself given as the draft version and
put first, the list is `[MVFST, MVFST, MVFST_OLD]`, in which `MVFST` occurs
twice. -/
theorem supported_versions_counterexample :
    HQServer.versions (some .MVFST) true = [.MVFST, .MVFST, .MVFST_OLD] ∧
    (HQServer.versions (some .MVFST) true).count .MVFST = 2 := by
  decide

/-! ## Properties of the lock discipline -/

/-- C16.  In every run of `onHeadersComplete` and of `maybeCleanup`, the calls
on the map of waiting handlers (find, insert, erase) are made after the mutex
is locked and before it is unlocked, the mutex is never locked twice or
unlocked while free, and it is free again when the method returns, on every
path, the early error returns included. -/
theorem registry_access_under_lock (tryTo : String → Option Nat) (self : Nat)
    (this : WaitReleaseHandler) (msg : HTTPMessage) (reg : Registry) :
    lockRun false (WaitReleaseHandler.onHeadersComplete tryTo self this msg reg).2.2
      = some false ∧
    lockRun false (WaitReleaseHandler.maybeCleanup this reg).2 = some false := by
  constructor
  · by_cases hbad : msg.method ≠ some .GET ∨ msg.getQueryParam "id" = "" ∨
        (msg.path ≠ "/wait" ∧ msg.path ≠ "/release")
    · rw [onHeadersComplete_bad_request tryTo self this msg reg hbad]
      rfl
    · have hm : msg.method = some .GET := by
        by_contra h; exact hbad (Or.inl h)
      have hid : msg.getQueryParam "id" ≠ "" := fun h => hbad (Or.inr (Or.inl h))
      have hp : msg.path = "/wait" ∨ msg.path = "/release" := by
        by_contra h
        exact hbad (Or.inr (Or.inr ⟨fun h1 => h (Or.inl h1), fun h2 => h (Or.inr h2)⟩))
      cases hq : tryTo (msg.getQueryParam "id") with
      | none =>
        rw [onHeadersComplete_invalid_id tryTo self this msg reg hm hid hp (Or.inl hq)]
        rfl
      | some n =>
        by_cases hn : n = 0
        · rw [onHeadersComplete_invalid_id tryTo self this msg reg hm hid hp
            (Or.inr (by rw [hq, hn]))]
          rfl
        · rcases hp with hp | hp
          · rw [onHeadersComplete_wait tryTo self this msg reg n hm hp hid hq hn]
            cases reg.find n <;> rfl
          · rw [onHeadersComplete_release tryTo self this msg reg n hm hp hid hq hn]
            cases reg.find n <;> rfl
  · unfold WaitReleaseHandler.maybeCleanup
    split_ifs
    · cases reg.find this.id_ <;> rfl
    · rfl

/-! ## Properties of the try-guard -/

/-- C17 fails on the code.  A `ReadTryGuard` built on a free mutex converts to
true, but it holds the mutex exclusively, not in shared mode: a second guard
built while the first holds the mutex converts to false, and so does a guard
built on a mutex held by one reader, where `try_lock_shared` would have
succeeded.  The guard does give the lock back once: after `release` the mutex
is free, and a second `release` changes nothing. -/
theorem read_try_guard_takes_exclusive_lock :
    ReadTryGuard.new ⟨false, 0⟩ = (⟨true⟩, ⟨true, 0⟩) ∧
    (ReadTryGuard.new (ReadTryGuard.new ⟨false, 0⟩).2).1.toBool = false ∧
    (ReadTryGuard.new ⟨false, 1⟩).1.toBool = false ∧
    (SharedMutex.try_lock_shared ⟨false, 1⟩).1 = true ∧
    ReadTryGuard.release ⟨true⟩ ⟨true, 0⟩ = (⟨false⟩, ⟨false, 0⟩) ∧
    ReadTryGuard.release ⟨false⟩ ⟨false, 0⟩ = (⟨false⟩, ⟨false, 0⟩) := by
  decide

end quic.samples
